import Mathlib

/-!
# Bullet collision checker of `planner/bulletCollision.cc`

A shallow embedding of the adjacency filter (`NeighborLinksFilter`) and of the
validity query (`BulletCollisionChecker::isValid`), followed by the properties
proved about them.

Conventions of the embedding.

* Names (`Str`) are `String`s.  Maps keyed by name (`Map<Str, T>`) are
  association lists that never hold a key twice; the first pair with a key is
  the entry of that key.
* Pointers to scene-graph nodes are the node records themselves, a null pointer
  is `none`.
* Accesses that are out of range in the C++ code (`links[1]`, `vector::at`,
  a bit position beyond the width of a bitset) end the run with a `Fault`.
* `unsigned int` counters wrap modulo `2 ^ 32`.
* Scalars are rationals: the code only copies and compares them.
* Bullet, Eigen, OMPL, fplus and the scene graph lie outside `bulletCollision.cc`:
  what the code asks of them is a parameter (`Graph`, `Engine`, `Query`), except
  `fplus::split`, whose library behaviour is written out.
-/

namespace planner.collisions

/-! ## Faults -/

/-- The ways a run of the embedded code can stop without a result. -/
inductive Fault where
  /-- Read of `links[i]` beyond the parts of a blacklist entry. -/
  | linksOutOfRange
  /-- Access `blacklist.at(i)` or `blacklist[i]` with `i` beyond the rows. -/
  | rowOutOfRange
  /-- A bit position beyond the width of a bitset. -/
  | bitOutOfRange
  /-- Access `robot_collisions.at(name)` with a name that has no robot body. -/
  | noRobotBody
  /-- Access `robot->tree_nodes.at(name)` with a name that is no key of the tree. -/
  | noTreeNode
deriving DecidableEq, Repr

/-! ## Reading the blacklist file -/

/-- Whitespace of the stream extraction `blacklist_file >> line`. -/
def isspace (c : Char) : Bool :=
  c == ' ' || c == '\t' || c == '\n' || c == '\r' || c.toNat == 11 || c.toNat == 12

/-- Cut a character list at every element that satisfies `p`; the number of
parts is the number of cut points plus one, empty parts are kept. -/
def splitChars (p : Char → Bool) : List Char → List (List Char)
  | [] => [[]]
  | c :: cs =>
    if p c then [] :: splitChars p cs
    else
      match splitChars p cs with
      | [] => [[c]]
      | part :: parts => (c :: part) :: parts

/-- The library function `fplus::split(sep, allow_empty, xs)` on strings: the parts of
`xs` between occurrences of `sep`; empty parts are dropped unless `allow_empty`. -/
def fplus_split (sep : Char) (allow_empty : Bool) (xs : String) : List String :=
  let parts := splitChars (fun c => c == sep) xs.data
  (if allow_empty then parts else parts.filter (fun part => !part.isEmpty)).map String.mk

/-- The successive values of `line` in `while (blacklist_file >> line)`: the maximal
runs of non-whitespace characters of the file, in order. -/
def readTokens (content : String) : List String :=
  ((splitChars isspace content.data).filter (fun part => !part.isEmpty)).map String.mk

/-! ## The adjacency filter -/

/-- A node of the scene graph (`structures::scenegraph::Node`) as this code reads it:
its name, its geometry pointer (`none` for `nullptr`) and its two flags. -/
structure Node where
  name : String
  geom : Option Nat
  is_object : Bool
  is_obstacle : Bool
deriving DecidableEq, Repr

/-- The scene graph as the filter uses it: `sg->find(name)` and `a.has_child(b)`. -/
structure Graph where
  find : String → Node
  has_child : Node → Node → Bool

/-- The part of `NeighborLinksFilter` that its constructor builds, with the local
`idx` of the constructor. -/
structure FilterTable where
  idx : Nat
  index_map : List (String × Nat)
  blacklist : List (List Bool)
deriving DecidableEq, Repr

/-- The call `index_map.try_emplace(key, idx)`: the map afterwards, the value stored
under `key` (`it->second`) and whether the key was new. -/
def try_emplace (m : List (String × Nat)) (key : String) (idx : Nat) :
    List (String × Nat) × Nat × Bool :=
  match m.lookup key with
  | some v => (m, v, false)
  | none => (m ++ [(key, idx)], idx, true)

/-- Lines 153-157 (and 159-163): `try_emplace`, then on a new name `++idx` and
`blacklist.emplace_back(num_items, 0)`.  Returns the index of the name. -/
def emplaceLink (num_items : Nat) (t : FilterTable) (link : String) : FilterTable × Nat :=
  match try_emplace t.index_map link t.idx with
  | (m, v, true) =>
    ({ idx := t.idx + 1, index_map := m,
       blacklist := t.blacklist ++ [List.replicate num_items false] }, v)
  | (m, v, false) => ({ t with index_map := m }, v)

/-- Modelled from the spec: the element type of `blacklist` is declared in `collision.hh`,
which is not among the sources; the spec describes it as a bitset whose width is the
supplied link count, here a list of `num_items` booleans.  This is the call
`blacklist.at(row).set(pos, true)`; a position beyond the width is a fault. -/
def setBit (blacklist : List (List Bool)) (row pos : Nat) : Except Fault (List (List Bool)) :=
  match blacklist[row]? with
  | none => .error .rowOutOfRange
  | some mask =>
    if pos < mask.length then .ok (blacklist.set row (mask.set pos true))
    else .error .bitOutOfRange

/-- One turn of the loop of the constructor (lines 150-169) on the entry `line`; the
iterators returned by `try_emplace` are read as the indices they point to. -/
def ctorStep (num_items : Nat) (t : FilterTable) (line : String) : Except Fault FilterTable :=
  let links := fplus_split ',' true line
  match links[0]?, links[1]? with
  | some link_a, some link_b =>
    let (t1, link_a_idx) := emplaceLink num_items t link_a
    let (t2, link_b_idx) := emplaceLink num_items t1 link_b
    if link_a_idx < t2.blacklist.length ∧ link_b_idx < t2.blacklist.length then
      match setBit t2.blacklist link_a_idx link_b_idx with
      | .error e => .error e
      | .ok bl1 =>
        match setBit bl1 link_b_idx link_a_idx with
        | .error e => .error e
        | .ok bl2 => .ok { t2 with blacklist := bl2 }
    else .error .rowOutOfRange
  | _, _ => .error .linksOutOfRange

/-- The loop of the constructor over the entries of the file. -/
def ctorLoop (num_items : Nat) : FilterTable → List String → Except Fault FilterTable
  | t, [] => .ok t
  | t, line :: lines =>
    match ctorStep num_items t line with
    | .error e => .error e
    | .ok t1 => ctorLoop num_items t1 lines

/-- The filter: name to filter index, one exclusion bitset per index, and the scene
graph. -/
structure NeighborLinksFilter where
  index_map : List (String × Nat)
  blacklist : List (List Bool)
  sg : Graph

/-- The constructor `NeighborLinksFilter::NeighborLinksFilter(blacklist_path,
num_items, sg)`; `blacklist_file` is the content of the file at `blacklist_path`,
`none` when no path is given.  A file that cannot be opened reads like an empty one. -/
def NeighborLinksFilter.ctor (blacklist_file : Option String) (num_items : Nat)
    (sg : Graph) : Except Fault NeighborLinksFilter :=
  match blacklist_file with
  | none => .ok { index_map := [], blacklist := [], sg := sg }
  | some content =>
    match ctorLoop num_items { idx := 0, index_map := [], blacklist := [] }
        (readTokens content) with
    | .error e => .error e
    | .ok t => .ok { index_map := t.index_map, blacklist := t.blacklist, sg := sg }

/-! ## Collision bodies and the pair filter -/

/-- A Bullet vector (`btVector3`). -/
structure btVector3 where
  x : ℚ
  y : ℚ
  z : ℚ
deriving DecidableEq, Repr

/-- A Bullet quaternion (`btQuaternion`). -/
structure btQuaternion where
  x : ℚ
  y : ℚ
  z : ℚ
  w : ℚ
deriving DecidableEq, Repr

/-- A Bullet transform (`btTransform`): what `setOrigin` and `setRotation` stored. -/
structure btTransform where
  origin : btVector3
  rotation : btQuaternion
deriving DecidableEq, Repr

/-- The identity transform of Bullet. -/
def btIdentity : btTransform := ⟨⟨0, 0, 0⟩, ⟨0, 0, 0, 1⟩⟩

/-- A collision body (`btCollisionObject`): its world transform, its user index (the
filter index, `-1` when unset) and the name its user pointer points to. -/
structure btCollisionObject where
  worldTransform : btTransform
  userIndex : Int
  userPointer : String
deriving DecidableEq, Repr

/-- A broadphase proxy (`btBroadphaseProxy`). -/
structure btBroadphaseProxy where
  m_clientObject : btCollisionObject
  m_collisionFilterGroup : Int
  m_collisionFilterMask : Int
deriving DecidableEq, Repr

/-- The read `blacklist[idx1][idx2]` of a bit of a bitset; a row or a position out of
range is a fault. -/
def readBit (blacklist : List (List Bool)) (idx1 idx2 : Nat) : Except Fault Bool :=
  match blacklist[idx1]? with
  | none => .error .rowOutOfRange
  | some mask =>
    match mask[idx2]? with
    | none => .error .bitOutOfRange
    | some b => .ok b

/-- Line 184: `collides && ((idx1 < 0) || (idx2 < 0) || !blacklist[idx1][idx2])`, with
the short-circuit order of the operators. -/
def bitsetTest (blacklist : List (List Bool)) (collides : Bool) (idx1 idx2 : Int) :
    Except Fault Bool :=
  if collides then
    if idx1 < 0 then .ok true
    else if idx2 < 0 then .ok true
    else
      match readBit blacklist idx1.toNat idx2.toNat with
      | .error e => .error e
      | .ok b => .ok (!b)
  else .ok false

/-- The method `NeighborLinksFilter::needBroadphaseCollision(proxy0, proxy1)`. -/
def NeighborLinksFilter.needBroadphaseCollision (self : NeighborLinksFilter)
    (proxy0 proxy1 : btBroadphaseProxy) : Except Fault Bool :=
  let collides :=
    Int.land proxy0.m_collisionFilterGroup proxy1.m_collisionFilterMask != 0
  let collides :=
    collides && (Int.land proxy1.m_collisionFilterGroup proxy0.m_collisionFilterMask != 0)
  let obj1 := proxy0.m_clientObject
  let obj2 := proxy1.m_clientObject
  let idx1 := obj1.userIndex
  let idx2 := obj2.userIndex
  match bitsetTest self.blacklist collides idx1 idx2 with
  | .error e => .error e
  | .ok collides =>
    let name1 := obj1.userPointer
    let name2 := obj2.userPointer
    let node1 := self.sg.find name1
    let node2 := self.sg.find name2
    .ok (collides && !(self.sg.has_child node1 node2 || self.sg.has_child node2 node1))

/-! ## The validity query -/

/-- An Eigen vector of three scalars. -/
structure Vector3r where
  x : ℚ
  y : ℚ
  z : ℚ
deriving DecidableEq, Repr

/-- An Eigen transform (`Transform3r`): its translation and its linear part. -/
structure Transform3r where
  translation : Vector3r
  linear : Fin 3 → Fin 3 → ℚ

/-- A contact manifold as `isValid` reads it: the names behind the user pointers of
its two bodies and the distances of its contact points, in index order. -/
structure Manifold where
  body0 : String
  body1 : String
  contacts : List ℚ
deriving DecidableEq, Repr

/-- The checker together with the file-level variables `node_map`, `oob_count`,
`self_coll_count`, `world_coll_count` and `counter`; `manifolds` are the manifolds
held by the dispatcher. -/
structure CheckerState where
  robot_collisions : List (String × btCollisionObject)
  object_collisions : List (String × btCollisionObject)
  obstacle_collisions : List btCollisionObject
  broadphase_filter : NeighborLinksFilter
  manifolds : List Manifold
  node_map : List (String × Option Node)
  oob_count : Nat
  self_coll_count : Nat
  world_coll_count : Nat
  counter : Int

/-- What lies outside the source file: the constant `PENETRATION_EPSILON` of
`collision.hh`, the conversion `Eigen::Quaterniond(linear)`, and Bullet's
`updateAabbs` with `performDiscreteCollisionDetection`, given as the manifolds the
dispatcher holds afterwards. -/
structure Engine where
  PENETRATION_EPSILON : ℚ
  quaternion : (Fin 3 → Fin 3 → ℚ) → btQuaternion
  detect : CheckerState → List Manifold

/-- What a planner state gives through its collaborators: the answer of
`si->satisfiesBounds(state)`, the scene graph `cstate->sg`, and the calls that
`update_transforms` makes to its callback (node and collision-frame transform). -/
structure Query where
  satisfiesBounds : Bool
  sg : Graph
  poses : List (Node × Transform3r)

/-- The increment `++c` of an `unsigned int`. -/
def incr_u32 (c : Nat) : Nat := (c + 1) % 2 ^ 32

/-- The increment `++c` of an `int` (wrapping at the 32-bit range). -/
def incr_i32 (c : Int) : Int := (c + 1 + 2 ^ 31) % 2 ^ 32 - 2 ^ 31

/-- The call `m.emplace(key, value)`: no effect when the key is present. -/
def map_emplace {β : Type} (m : List (String × β)) (key : String) (value : β) :
    List (String × β) :=
  match m.lookup key with
  | some _ => m
  | none => m ++ [(key, value)]

/-- Replace the value stored under `key`, if any. -/
def map_update {β : Type} (m : List (String × β)) (key : String) (g : β → β) :
    List (String × β) :=
  m.map (fun kv => if kv.1 == key then (kv.1, g kv.2) else kv)

/-- The read `node_map[name]`: the pointer stored under `name`; an absent name is
inserted with a null pointer. -/
def node_map_index (m : List (String × Option Node)) (name : String) :
    List (String × Option Node) × Option Node :=
  match m.lookup name with
  | some node => (m, node)
  | none => (m ++ [(name, none)], none)

/-- The callback `pose_helper(node, robot_ancestor, tf, coll_tf)` of lines 266-290. -/
def pose_helper (E : Engine) (s : CheckerState) (node : Node) (coll_tf : Transform3r) :
    Except Fault CheckerState :=
  if node.geom.isSome && !node.is_obstacle then
    let translation := coll_tf.translation
    let rotation := E.quaternion coll_tf.linear
    -- `collision_obj`: the key of the body it points to, `none` for `nullptr`
    let collision_obj : Except Fault (Option String) :=
      if node.is_object then .ok none
      else
        match s.robot_collisions.lookup node.name with
        | some _ => .ok (some node.name)
        | none => .error .noRobotBody
    match collision_obj with
    | .error e => .error e
    | .ok none => .ok { s with node_map := map_emplace s.node_map node.name (some node) }
    | .ok (some key) =>
      let setTransform : btCollisionObject → btCollisionObject := fun obj =>
        let trans := obj.worldTransform
        let trans := { trans with origin := ⟨translation.x, translation.y, translation.z⟩ }
        let trans := { trans with rotation := ⟨rotation.x, rotation.y, rotation.z, rotation.w⟩ }
        { obj with worldTransform := trans }
      .ok { s with
        robot_collisions := map_update s.robot_collisions key setTransform
        node_map := map_emplace s.node_map node.name (some node) }
  else .ok s

/-- The traversal `update_transforms(..., pose_helper)`: the callback run on each
node the scene graph visits. -/
def update_transforms (E : Engine) : CheckerState → List (Node × Transform3r) →
    Except Fault CheckerState
  | s, [] => .ok s
  | s, (node, coll_tf) :: rest =>
    match pose_helper E s node coll_tf with
    | .error e => .error e
    | .ok s1 => update_transforms E s1 rest

/-- The inner loop of lines 316-375: whether some contact point, in index order, has
`getDistance() <= -PENETRATION_EPSILON`. -/
def contactLoop (E : Engine) : List ℚ → Bool
  | [] => false
  | distance :: rest =>
    if distance ≤ -E.PENETRATION_EPSILON then true else contactLoop E rest

/-- The call `clearManifold(manifold)`: the manifold keeps its bodies and loses its
contact points. -/
def clearManifold (m : Manifold) : Manifold := { m with contacts := [] }

/-- Lines 320-334 and 367: on a disqualifying contact of `m`, look both names up in
`node_map`, count the contact as a self or a world collision, and `++counter`. -/
def classify (s : CheckerState) (m : Manifold) : CheckerState :=
  let name1 := m.body0
  let name2 := m.body1
  let (nm1, node1) := node_map_index s.node_map name1
  let (nm2, node2) := node_map_index nm1 name2
  let self_collision : Bool :=
    match node1, node2 with
    | some n1, some n2 =>
      (!n1.is_object && !n1.is_obstacle) && (!n2.is_object && !n2.is_obstacle)
    | _, _ => false
  if self_collision then
    { s with node_map := nm2, self_coll_count := incr_u32 s.self_coll_count,
             counter := incr_i32 s.counter }
  else
    { s with node_map := nm2, world_coll_count := incr_u32 s.world_coll_count,
             counter := incr_i32 s.counter }

/-- The loop over the manifolds of lines 310-378: the result of the query, the state
of the counters and of `node_map`, and the manifolds as the loop leaves them. -/
def manifoldLoop (E : Engine) (s : CheckerState) :
    List Manifold → Bool × CheckerState × List Manifold
  | [] => (true, s, [])
  | manifold :: rest =>
    if contactLoop E manifold.contacts then
      (false, classify s manifold, clearManifold manifold :: rest)
    else
      match manifoldLoop E s rest with
      | (result, s1, rest1) => (result, s1, clearManifold manifold :: rest1)

/-- Line 293: `broadphase_filter->sg = cstate->sg`. -/
def setSceneGraph (s : CheckerState) (sg : Graph) : CheckerState :=
  { s with broadphase_filter := { s.broadphase_filter with sg := sg } }

/-- The method `BulletCollisionChecker::isValid(state)`. -/
def isValid (E : Engine) (q : Query) (s : CheckerState) : Except Fault (Bool × CheckerState) :=
  if !q.satisfiesBounds then
    .ok (false, { s with oob_count := incr_u32 s.oob_count })
  else
    match update_transforms E s q.poses with
    | .error e => .error e
    | .ok s1 =>
      let s2 := setSceneGraph s1 q.sg
      let s3 := { s2 with manifolds := E.detect s2 }
      match manifoldLoop E s3 s3.manifolds with
      | (result, s4, manifolds) => .ok (result, { s4 with manifolds := manifolds })

/-- Both names of the manifold resolve in `node_map` to nodes that are neither movable
objects nor obstacles: the test of lines 329-330. -/
def resolvesToRobotLinks (node_map : List (String × Option Node)) (m : Manifold) : Prop :=
  ∃ n1 n2, node_map.lookup m.body0 = some (some n1) ∧ node_map.lookup m.body1 = some (some n2) ∧
    n1.is_object = false ∧ n1.is_obstacle = false ∧
    n2.is_object = false ∧ n2.is_obstacle = false

/-- The transform that `pose_helper` writes into a body (lines 282-285). -/
def syncedBody (E : Engine) (coll_tf : Transform3r) (obj : btCollisionObject) :
    btCollisionObject :=
  { obj with worldTransform :=
      ⟨⟨coll_tf.translation.x, coll_tf.translation.y, coll_tf.translation.z⟩,
       ⟨(E.quaternion coll_tf.linear).x, (E.quaternion coll_tf.linear).y,
        (E.quaternion coll_tf.linear).z, (E.quaternion coll_tf.linear).w⟩⟩ }

/-- The test of lines 329-330 as `classify` evaluates it. -/
def selfTest (node_map : List (String × Option Node)) (m : Manifold) : Bool :=
  match (node_map.lookup m.body0).getD none, (node_map.lookup m.body1).getD none with
  | some n1, some n2 =>
    (!n1.is_object && !n1.is_obstacle) && (!n2.is_object && !n2.is_obstacle)
  | _, _ => false

/-- Every node visited by the traversal that is a robot link with geometry has a body in
`robot_collisions`, so that `robot_collisions.at(node->name)` finds it. -/
def robotLinksHaveBodies (s : CheckerState) (poses : List (Node × Transform3r)) : Prop :=
  ∀ p ∈ poses, p.1.geom.isSome = true → p.1.is_obstacle = false → p.1.is_object = false →
    (s.robot_collisions.lookup p.1.name).isSome = true

/-! ## The constructor of the checker -/

/-- A robot link as the constructor reads it, an element of `robot->tree_nodes`. -/
structure Link where
  name : String
  geom : Option Nat
  collision_transform : Transform3r

/-- An object or an obstacle of a `scene::ObjectSet` as the constructor reads it. -/
structure SceneObject where
  name : String
  geom : Option Nat
  initial_pose : btTransform
deriving DecidableEq, Repr

/-- The file-level variables as they are when a checker is constructed. -/
structure FileGlobals where
  node_map : List (String × Option Node)
  oob_count : Nat
  self_coll_count : Nat
  world_coll_count : Nat
  counter : Int

/-- A body as `std::make_unique<btCollisionObject>()` leaves it: identity transform, user
index `-1`, and a null user pointer, written as the empty name. -/
def newCollisionObject : btCollisionObject := ⟨btIdentity, -1, ""⟩

/-- The first loop of the constructor (lines 425-439): one new body per robot link with
geometry whose name has no body yet, and the count `num_robot_nodes` of these bodies. -/
def countRobotNodes : List (String × Link) → List (String × btCollisionObject) → Nat →
    List (String × btCollisionObject) × Nat
  | [], robot_collisions, num_robot_nodes => (robot_collisions, num_robot_nodes)
  | (_, link) :: rest, robot_collisions, num_robot_nodes =>
    if link.geom.isNone then countRobotNodes rest robot_collisions num_robot_nodes
    else
      match robot_collisions.lookup link.name with
      | some _ => countRobotNodes rest robot_collisions num_robot_nodes
      | none =>
        countRobotNodes rest (robot_collisions ++ [(link.name, newCollisionObject)])
          (num_robot_nodes + 1)

/-- The loop over the obstacles (lines 444-455): one body per obstacle, with its name,
the user index `-1` and its initial pose. -/
def obstacleBodies (obstacles : List (String × SceneObject)) : List btCollisionObject :=
  obstacles.map (fun obstacle_elem =>
    let obstacle := obstacle_elem.2
    let obstacle_collision := newCollisionObject
    let obstacle_collision := { obstacle_collision with userPointer := obstacle.name }
    let obstacle_collision := { obstacle_collision with userIndex := -1 }
    { obstacle_collision with worldTransform := obstacle.initial_pose })

/-- The loop over the movable objects (lines 457-469): `emplace` under the name of the
object, then name, user index `-1` and initial pose written into the body found there. -/
def objectBodies : List (String × SceneObject) → List (String × btCollisionObject) →
    List (String × btCollisionObject)
  | [], object_collisions => object_collisions
  | (_, object) :: rest, object_collisions =>
    let object_collisions := map_emplace object_collisions object.name newCollisionObject
    objectBodies rest
      (map_update object_collisions object.name (fun object_collision =>
        let object_collision := { object_collision with userPointer := object.name }
        let object_collision := { object_collision with userIndex := -1 }
        { object_collision with worldTransform := object.initial_pose }))

/-- One turn of the loop over the robot bodies (lines 471-496): the link found under the
key of the body gives the name, the user index (its filter index, `-1` when the name has
none) and the transform of the body. -/
def setupRobotBody (E : Engine) (broadphase_filter : NeighborLinksFilter)
    (tree_nodes : List (String × Link)) (name : String) (link_collision : btCollisionObject) :
    Except Fault btCollisionObject :=
  match tree_nodes.lookup name with
  | none => .error .noTreeNode
  | some link =>
    let link_collision := { link_collision with userPointer := link.name }
    let link_collision :=
      match broadphase_filter.index_map.lookup link.name with
      | some idx => { link_collision with userIndex := (idx : Int) }
      | none => { link_collision with userIndex := -1 }
    let link_translation := link.collision_transform.translation
    let link_rotation := E.quaternion link.collision_transform.linear
    let link_tf : btTransform :=
      ⟨⟨link_translation.x, link_translation.y, link_translation.z⟩,
       ⟨link_rotation.x, link_rotation.y, link_rotation.z, link_rotation.w⟩⟩
    .ok { link_collision with worldTransform := link_tf }

/-- The loop over the robot bodies (lines 471-496). -/
def setupRobotBodies (E : Engine) (broadphase_filter : NeighborLinksFilter)
    (tree_nodes : List (String × Link)) :
    List (String × btCollisionObject) → Except Fault (List (String × btCollisionObject))
  | [] => .ok []
  | (name, link_collision) :: rest =>
    match setupRobotBody E broadphase_filter tree_nodes name link_collision with
    | .error e => .error e
    | .ok body =>
      match setupRobotBodies E broadphase_filter tree_nodes rest with
      | .error e => .error e
      | .ok bodies => .ok ((name, body) :: bodies)

/-- The constructor `BulletCollisionChecker::BulletCollisionChecker(si, objects, obstacles,
robot, blacklist_path, sg)`; `tree_nodes` is `robot->tree_nodes` and `blacklist_file` the
content of the file at `blacklist_path`.  The registration of the bodies with the collision
world of Bullet, with their group and mask, is not part of the state. -/
def BulletCollisionChecker.ctor (E : Engine) (globals : FileGlobals)
    (objects obstacles : List (String × SceneObject)) (tree_nodes : List (String × Link))
    (blacklist_file : Option String) (sg : Graph) : Except Fault CheckerState :=
  match countRobotNodes tree_nodes [] 0 with
  | (robot_collisions, num_robot_nodes) =>
    match NeighborLinksFilter.ctor blacklist_file num_robot_nodes sg with
    | .error e => .error e
    | .ok broadphase_filter =>
      let obstacle_collisions := obstacleBodies obstacles
      let object_collisions := objectBodies objects []
      match setupRobotBodies E broadphase_filter tree_nodes robot_collisions with
      | .error e => .error e
      | .ok robot_collisions =>
        .ok { robot_collisions := robot_collisions
              object_collisions := object_collisions
              obstacle_collisions := obstacle_collisions
              broadphase_filter := broadphase_filter
              manifolds := []
              node_map := globals.node_map
              oob_count := globals.oob_count
              self_coll_count := globals.self_coll_count
              world_coll_count := globals.world_coll_count
              counter := globals.counter }

/-- The bodies of a checker: obstacles, movable objects and robot links. -/
def CheckerState.bodies (s : CheckerState) : List btCollisionObject :=
  s.obstacle_collisions ++ s.object_collisions.map (fun kv => kv.2) ++
    s.robot_collisions.map (fun kv => kv.2)

/-- The user index of the body is `-1` or a value of the index map of the filter. -/
def assignedIndex (f : NeighborLinksFilter) (obj : btCollisionObject) : Prop :=
  obj.userIndex = -1 ∨
    ∃ name idx, f.index_map.lookup name = some idx ∧ obj.userIndex = (idx : Int)

/-! ## Reading order of the names of a blacklist file -/

/-- The names of the entries in reading order: for each entry its first name, then its
second name. -/
def entryNames (lines : List String) : List String :=
  lines.flatMap (fun line => (fplus_split ',' true line).take 2)

/-- The distinct elements of a list in the order of their first appearance. -/
def firstSeen : List String → List String
  | [] => []
  | x :: xs => x :: (firstSeen xs).filter (fun y => y != x)

/-- A name joins the names seen so far unless it is among them. -/
def addName (acc : List String) (x : String) : List String :=
  if x ∈ acc then acc else acc ++ [x]

/-- The names seen after an entry with the names `a` and `b`. -/
def addEntry (acc : List String) (a b : String) : List String :=
  addName (addName acc a) b

/-- The table of the constructor holds exactly the names `acc`, each under its position
in `acc`, with one bitset of width `num_items` per name. -/
structure TableInv (num_items : Nat) (acc : List String) (t : FilterTable) : Prop where
  lookup_iff : ∀ x i, t.index_map.lookup x = some i ↔ acc[i]? = some x
  map_length : t.index_map.length = acc.length
  idx_eq : t.idx = acc.length
  rows : t.blacklist.length = acc.length
  width : ∀ row ∈ t.blacklist, row.length = num_items

/-- The blacklist file, if there is one, names at most `n` distinct links. -/
def namesAtMost (blacklist_file : Option String) (n : Nat) : Prop :=
  match blacklist_file with
  | none => True
  | some content => (entryNames (readTokens content)).toFinset.card ≤ n

/-! ## Concrete scene used to evaluate the definitions -/

/-- A robot link with geometry. -/
def armNode : Node := ⟨"arm", some 0, false, false⟩

/-- A second robot link with geometry. -/
def handNode : Node := ⟨"hand", some 1, false, false⟩

/-- A movable object. -/
def cupNode : Node := ⟨"cup", some 2, true, false⟩

/-- A static obstacle. -/
def wallNode : Node := ⟨"wall", some 3, false, true⟩

/-- A scene graph in which `arm` is the parent of `hand`. -/
def sampleGraph : Graph where
  find := fun name =>
    if name = "arm" then armNode else if name = "hand" then handNode
    else if name = "cup" then cupNode else wallNode
  has_child := fun a b => a.name == "arm" && b.name == "hand"

/-- A collision-frame transform with translation `(1, 2, 3)`. -/
def sampleTf : Transform3r := ⟨⟨1, 2, 3⟩, fun i j => if i = j then 1 else 0⟩

/-- A checker with two robot links, one object and one obstacle, before any query. -/
def sampleState : CheckerState where
  robot_collisions := [("arm", ⟨btIdentity, 0, "arm"⟩), ("hand", ⟨btIdentity, 1, "hand"⟩)]
  object_collisions := [("cup", ⟨btIdentity, -1, "cup"⟩)]
  obstacle_collisions := [⟨btIdentity, -1, "wall"⟩]
  broadphase_filter := ⟨[("arm", 0), ("hand", 1)], [[false, true], [true, false]], sampleGraph⟩
  manifolds := []
  node_map := []
  oob_count := 0
  self_coll_count := 0
  world_coll_count := 0
  counter := 0

/-- An engine with tolerance `1` that reports the given manifolds. -/
def sampleEngine (ms : List Manifold) : Engine where
  PENETRATION_EPSILON := 1
  quaternion := fun _ => ⟨0, 0, 0, 1⟩
  detect := fun _ => ms

/-- A query that visits the two robot links, the object and the obstacle. -/
def sampleQuery (inBounds : Bool) : Query where
  satisfiesBounds := inBounds
  sg := sampleGraph
  poses := [(armNode, sampleTf), (handNode, sampleTf), (cupNode, sampleTf), (wallNode, sampleTf)]

/-- The sample checker after the poses of `sampleQuery` have been written. -/
def sampleSynced : CheckerState :=
  { sampleState with
    robot_collisions :=
      [("arm", ⟨⟨⟨1, 2, 3⟩, ⟨0, 0, 0, 1⟩⟩, 0, "arm"⟩),
       ("hand", ⟨⟨⟨1, 2, 3⟩, ⟨0, 0, 0, 1⟩⟩, 1, "hand"⟩)]
    node_map := [("arm", some armNode), ("hand", some handNode), ("cup", some cupNode)] }

/-- A manifold whose only contact touches without penetrating. -/
def grazeManifold : Manifold := ⟨"cup", "wall", [0]⟩

/-- A manifold between two robot links whose second contact penetrates. -/
def selfManifold : Manifold := ⟨"arm", "hand", [0, -2, -5]⟩

/-- A manifold between a robot link and the obstacle, penetrating. -/
def wallManifold : Manifold := ⟨"arm", "wall", [-3]⟩

/-- The proxy of the body of `arm`: filter index 0, group 2, mask 1 + 2. -/
def armProxy : btBroadphaseProxy := ⟨⟨btIdentity, 0, "arm"⟩, 2, 3⟩

/-- The proxy of the body of `hand`: filter index 1, group 2, mask 1 + 2. -/
def handProxy : btBroadphaseProxy := ⟨⟨btIdentity, 1, "hand"⟩, 2, 3⟩

/-- The proxy of the body of `wall`: no filter index, group 1, mask 1 + 2. -/
def wallProxy : btBroadphaseProxy := ⟨⟨btIdentity, -1, "wall"⟩, 1, 3⟩

/-- The filter built from the file `a,b` / `b,c` with three links. -/
def chainFilter : NeighborLinksFilter where
  index_map := [("a", 0), ("b", 1), ("c", 2)]
  blacklist := [[false, true, false], [true, false, true], [false, true, false]]
  sg := sampleGraph

/-- A query on a scene graph that holds the link `arm` only. -/
def armOnlyQuery : Query where
  satisfiesBounds := true
  sg := sampleGraph
  poses := [(armNode, sampleTf)]

/-- What of a robot body no query changes: its key, its filter index and its name. -/
def bodyIdentity (kv : String × btCollisionObject) : String × Int × String :=
  (kv.1, kv.2.userIndex, kv.2.userPointer)

/-- The links of a sample robot: `arm` and `hand` with geometry, `base` without. -/
def sampleTreeNodes : List (String × Link) :=
  [("arm", ⟨"arm", some 0, sampleTf⟩), ("hand", ⟨"hand", some 1, sampleTf⟩),
   ("base", ⟨"base", none, sampleTf⟩)]

/-- The movable objects of the sample scene. -/
def sampleObjects : List (String × SceneObject) := [("cup", ⟨"cup", some 2, btIdentity⟩)]

/-- The obstacles of the sample scene. -/
def sampleObstacles : List (String × SceneObject) := [("wall", ⟨"wall", some 3, btIdentity⟩)]

/-- The file-level variables at the start of the process. -/
def freshGlobals : FileGlobals := ⟨[], 0, 0, 0, 0⟩

/-- The checker that the constructor builds from the sample robot and scene with the
blacklist file `arm,hand`. -/
def sampleBuilt : CheckerState where
  robot_collisions :=
    [("arm", ⟨⟨⟨1, 2, 3⟩, ⟨0, 0, 0, 1⟩⟩, 0, "arm"⟩),
     ("hand", ⟨⟨⟨1, 2, 3⟩, ⟨0, 0, 0, 1⟩⟩, 1, "hand"⟩)]
  object_collisions := [("cup", ⟨btIdentity, -1, "cup"⟩)]
  obstacle_collisions := [⟨btIdentity, -1, "wall"⟩]
  broadphase_filter := ⟨[("arm", 0), ("hand", 1)], [[false, true], [true, false]], sampleGraph⟩
  manifolds := []
  node_map := []
  oob_count := 0
  self_coll_count := 0
  world_coll_count := 0
  counter := 0

/-! ## Evaluation of the definitions on the sample file -/

theorem readTokens_sample : readTokens "a,b\nb,c \n" = ["a,b", "b,c"] := by decide

theorem fplus_split_sample :
    fplus_split ',' true "a,b" = ["a", "b"] ∧ fplus_split ',' true "a," = ["a", ""] ∧
    fplus_split ',' true ",b" = ["", "b"] ∧ fplus_split ',' true "a" = ["a"] ∧
    fplus_split ',' true "a,b,c" = ["a", "b", "c"] := by decide

theorem ctorLoop_sample :
    ctorLoop 3 ⟨0, [], []⟩ (readTokens "a,b\nb,c \n") =
      .ok ⟨3, [("a", 0), ("b", 1), ("c", 2)],
        [[false, true, false], [true, false, true], [false, true, false]]⟩ := by rfl

theorem ctorLoop_sample_too_narrow :
    ctorLoop 2 ⟨0, [], []⟩ (readTokens "a,b\nb,c \n") = .error .bitOutOfRange := by rfl

/-! ## Lemmas on the validity query -/

theorem contactLoop_eq_true_iff (E : Engine) (cs : List ℚ) :
    contactLoop E cs = true ↔ ∃ d ∈ cs, d ≤ -E.PENETRATION_EPSILON := by
  induction cs with
  | nil => simp [contactLoop]
  | cons d ds ih =>
    by_cases hd : d ≤ -E.PENETRATION_EPSILON
    · simp [contactLoop, hd]
    · simp [contactLoop, hd, ih]

theorem manifoldLoop_clean (E : Engine) (s : CheckerState) (ms : List Manifold)
    (h : ∀ m ∈ ms, contactLoop E m.contacts = false) :
    manifoldLoop E s ms = (true, s, ms.map clearManifold) := by
  induction ms with
  | nil => rfl
  | cons m rest ih =>
    have h1 : contactLoop E m.contacts = false := h m (List.mem_cons_self _ _)
    have h2 := ih (fun m' hm' => h m' (List.mem_cons_of_mem _ hm'))
    simp [manifoldLoop, h1, h2]

theorem manifoldLoop_first (E : Engine) (s : CheckerState) (pre post : List Manifold)
    (m : Manifold) (hpre : ∀ m' ∈ pre, contactLoop E m'.contacts = false)
    (hm : contactLoop E m.contacts = true) :
    manifoldLoop E s (pre ++ m :: post) =
      (false, classify s m, pre.map clearManifold ++ clearManifold m :: post) := by
  induction pre with
  | nil => simp [manifoldLoop, hm]
  | cons p rest ih =>
    have h1 : contactLoop E p.contacts = false := hpre p (List.mem_cons_self _ _)
    have h2 := ih (fun m' hm' => hpre m' (List.mem_cons_of_mem _ hm'))
    simp [manifoldLoop, h1, h2]

theorem manifoldLoop_result (E : Engine) (s : CheckerState) (ms : List Manifold) :
    (manifoldLoop E s ms).1 = false ↔ ∃ m ∈ ms, contactLoop E m.contacts = true := by
  induction ms with
  | nil => simp [manifoldLoop]
  | cons m rest ih =>
    by_cases hm : contactLoop E m.contacts = true
    · simp [manifoldLoop, hm]
    · simp only [Bool.not_eq_true] at hm
      simp [manifoldLoop, hm, ih]

theorem pose_helper_eq (E : Engine) (s : CheckerState) (node : Node) (coll_tf : Transform3r) :
    pose_helper E s node coll_tf =
      if node.geom.isSome && !node.is_obstacle then
        if node.is_object then
          .ok { s with node_map := map_emplace s.node_map node.name (some node) }
        else if (s.robot_collisions.lookup node.name).isSome then
          .ok { s with
            robot_collisions := map_update s.robot_collisions node.name (syncedBody E coll_tf)
            node_map := map_emplace s.node_map node.name (some node) }
        else .error .noRobotBody
      else .ok s := by
  unfold pose_helper
  by_cases h1 : (node.geom.isSome && !node.is_obstacle) = true
  · by_cases h2 : node.is_object = true
    · simp [h1, h2]
    · cases h3 : s.robot_collisions.lookup node.name with
      | none => simp [h1, h2, h3]
      | some v => simp [h1, h2, h3]; rfl
  · simp [h1]

theorem pose_helper_frame (E : Engine) (s s1 : CheckerState) (node : Node)
    (coll_tf : Transform3r) (h : pose_helper E s node coll_tf = .ok s1) :
    s1.oob_count = s.oob_count ∧ s1.self_coll_count = s.self_coll_count ∧
    s1.world_coll_count = s.world_coll_count ∧ s1.counter = s.counter ∧
    s1.manifolds = s.manifolds ∧ s1.broadphase_filter = s.broadphase_filter ∧
    s1.object_collisions = s.object_collisions ∧
    s1.obstacle_collisions = s.obstacle_collisions := by
  rw [pose_helper_eq] at h
  split at h
  · split at h
    · injection h with h; subst h; simp
    · split at h
      · injection h with h; subst h; simp
      · exact absurd h (by simp)
  · injection h with h; subst h; simp

theorem update_transforms_frame (E : Engine) (poses : List (Node × Transform3r)) :
    ∀ s s1 : CheckerState, update_transforms E s poses = .ok s1 →
    s1.oob_count = s.oob_count ∧ s1.self_coll_count = s.self_coll_count ∧
    s1.world_coll_count = s.world_coll_count ∧ s1.counter = s.counter ∧
    s1.manifolds = s.manifolds ∧ s1.broadphase_filter = s.broadphase_filter ∧
    s1.object_collisions = s.object_collisions ∧
    s1.obstacle_collisions = s.obstacle_collisions := by
  induction poses with
  | nil =>
    intro s s1 h
    simp only [update_transforms] at h
    injection h with h; subst h; simp
  | cons p rest ih =>
    intro s s1 h
    obtain ⟨node, coll_tf⟩ := p
    simp only [update_transforms] at h
    split at h
    · exact absurd h (by simp)
    · rename_i s' hs'
      have h1 := pose_helper_frame E s s' node coll_tf hs'
      have h2 := ih s' s1 h
      obtain ⟨a1, a2, a3, a4, a5, a6, a7, a8⟩ := h1
      obtain ⟨b1, b2, b3, b4, b5, b6, b7, b8⟩ := h2
      exact ⟨b1.trans a1, b2.trans a2, b3.trans a3, b4.trans a4, b5.trans a5, b6.trans a6,
        b7.trans a7, b8.trans a8⟩

theorem node_map_index_snd (m : List (String × Option Node)) (name : String) :
    (node_map_index m name).2 = (m.lookup name).getD none := by
  unfold node_map_index
  cases h : m.lookup name <;> simp

theorem node_map_index_lookup (m : List (String × Option Node)) (name other : String) :
    ((node_map_index m name).1.lookup other).getD none = (m.lookup other).getD none := by
  unfold node_map_index
  cases h : m.lookup name with
  | some v => simp
  | none =>
    simp only [List.lookup_append]
    cases h2 : m.lookup other with
    | some w => simp
    | none =>
      by_cases hk : other = name
      · subst hk; simp [List.lookup]
      · have : (other == name) = false := by simpa using hk
        simp [List.lookup, this]

theorem selfTest_iff (node_map : List (String × Option Node)) (m : Manifold) :
    selfTest node_map m = true ↔ resolvesToRobotLinks node_map m := by
  unfold selfTest resolvesToRobotLinks
  constructor
  · intro h
    cases h0 : node_map.lookup m.body0 with
    | none => simp [h0] at h
    | some o0 =>
      cases o0 with
      | none => simp [h0] at h
      | some n1 =>
        cases h1 : node_map.lookup m.body1 with
        | none => simp [h0, h1] at h
        | some o1 =>
          cases o1 with
          | none => simp [h0, h1] at h
          | some n2 =>
            simp [h0, h1] at h
            exact ⟨n1, n2, rfl, rfl, h.1.1, h.1.2, h.2.1, h.2.2⟩
  · rintro ⟨n1, n2, h0, h1, a, b, c, d⟩
    simp [h0, h1, a, b, c, d]

theorem classify_eq (s : CheckerState) (m : Manifold) :
    classify s m =
      if selfTest s.node_map m then
        { s with node_map := (node_map_index (node_map_index s.node_map m.body0).1 m.body1).1,
                 self_coll_count := incr_u32 s.self_coll_count,
                 counter := incr_i32 s.counter }
      else
        { s with node_map := (node_map_index (node_map_index s.node_map m.body0).1 m.body1).1,
                 world_coll_count := incr_u32 s.world_coll_count,
                 counter := incr_i32 s.counter } := by
  have e1 := node_map_index_snd s.node_map m.body0
  have e2 := node_map_index_snd (node_map_index s.node_map m.body0).1 m.body1
  rw [node_map_index_lookup] at e2
  simp only [classify, selfTest, e1, e2]

theorem lookup_map_update_isSome {β : Type} (m : List (String × β)) (key k : String)
    (g : β → β) : ((map_update m key g).lookup k).isSome = (m.lookup k).isSome := by
  induction m with
  | nil => rfl
  | cons kv rest ih =>
    obtain ⟨k1, v⟩ := kv
    have hcons : map_update ((k1, v) :: rest) key g =
        (if (k1 == key) = true then (k1, g v) else (k1, v)) :: map_update rest key g := rfl
    rw [hcons]
    by_cases hk : (k == k1) = true
    · by_cases hkey : (k1 == key) = true <;> simp [List.lookup_cons, hk, hkey]
    · simp only [Bool.not_eq_true] at hk
      by_cases hkey : (k1 == key) = true <;> simp [List.lookup_cons, hk, hkey, ih]

theorem pose_helper_keys (E : Engine) (s s1 : CheckerState) (node : Node)
    (coll_tf : Transform3r) (h : pose_helper E s node coll_tf = .ok s1) (k : String) :
    (s1.robot_collisions.lookup k).isSome = (s.robot_collisions.lookup k).isSome := by
  rw [pose_helper_eq] at h
  split at h
  · split at h
    · injection h with h; subst h; rfl
    · split at h
      · injection h with h; subst h
        exact lookup_map_update_isSome _ _ _ _
      · exact absurd h (by simp)
  · injection h with h; subst h; rfl

theorem update_transforms_completes (E : Engine) (poses : List (Node × Transform3r)) :
    ∀ s : CheckerState, robotLinksHaveBodies s poses →
      ∃ s1, update_transforms E s poses = .ok s1 := by
  induction poses with
  | nil => intro s _; exact ⟨s, rfl⟩
  | cons p rest ih =>
    intro s hb
    obtain ⟨node, coll_tf⟩ := p
    have hstep : ∃ s1, pose_helper E s node coll_tf = .ok s1 := by
      rw [pose_helper_eq]
      by_cases h1 : (node.geom.isSome && !node.is_obstacle) = true
      · by_cases h2 : node.is_object = true
        · simp [h1, h2]
        · simp only [Bool.and_eq_true, Bool.not_eq_true', Bool.not_eq_true] at h1 h2
          have := hb (node, coll_tf) (List.mem_cons_self _ _) h1.1 h1.2 h2
          simp only at this
          simp [h1, h2, this]
      · simp [h1]
    obtain ⟨s1, hs1⟩ := hstep
    have hb1 : robotLinksHaveBodies s1 rest := by
      intro q hq a1 a2 a3
      rw [pose_helper_keys E s s1 node coll_tf hs1]
      exact hb q (List.mem_cons_of_mem _ hq) a1 a2 a3
    obtain ⟨s2, hs2⟩ := ih s1 hb1
    exact ⟨s2, by simp only [update_transforms, hs1]; exact hs2⟩

theorem isValid_in_bounds (E : Engine) (q : Query) (s s1 : CheckerState)
    (hb : q.satisfiesBounds = true) (hp : update_transforms E s q.poses = .ok s1) :
    isValid E q s =
      .ok ((manifoldLoop E { setSceneGraph s1 q.sg with manifolds := E.detect (setSceneGraph s1 q.sg) }
              (E.detect (setSceneGraph s1 q.sg))).1,
           { (manifoldLoop E
                { setSceneGraph s1 q.sg with manifolds := E.detect (setSceneGraph s1 q.sg) }
                (E.detect (setSceneGraph s1 q.sg))).2.1 with
             manifolds := (manifoldLoop E
                { setSceneGraph s1 q.sg with manifolds := E.detect (setSceneGraph s1 q.sg) }
                (E.detect (setSceneGraph s1 q.sg))).2.2 }) := by
  simp [isValid, hb, hp]

/-! ## The bounds check -/

/-- C7: a state that fails the bounds predicate makes `isValid` return false and
increment `oob_count` (an `unsigned int`, so modulo `2 ^ 32`; by exactly one below the
maximum); every body, the node map, the filter with its scene graph, the manifolds and
the other counters are as before, and neither the poses of the query nor the engine
have any influence on the outcome. -/
theorem isValid_out_of_bounds (E : Engine) (q : Query) (s : CheckerState)
    (hb : q.satisfiesBounds = false) :
    ∃ s1, isValid E q s = .ok (false, s1) ∧
      s1.oob_count = (s.oob_count + 1) % 2 ^ 32 ∧
      (s.oob_count + 1 < 2 ^ 32 → s1.oob_count = s.oob_count + 1) ∧
      s1.robot_collisions = s.robot_collisions ∧
      s1.object_collisions = s.object_collisions ∧
      s1.obstacle_collisions = s.obstacle_collisions ∧
      s1.node_map = s.node_map ∧
      s1.broadphase_filter = s.broadphase_filter ∧
      s1.manifolds = s.manifolds ∧
      s1.self_coll_count = s.self_coll_count ∧
      s1.world_coll_count = s.world_coll_count ∧
      (∀ (E1 : Engine) (sg1 : Graph) (poses1 : List (Node × Transform3r)),
        isValid E1 ⟨false, sg1, poses1⟩ s = .ok (false, s1)) := by
  refine ⟨{ s with oob_count := incr_u32 s.oob_count }, ?_, rfl, ?_, rfl, rfl, rfl, rfl, rfl,
    rfl, rfl, rfl, ?_⟩
  · simp [isValid, hb]
  · intro h
    exact Nat.mod_eq_of_lt h
  · intro E1 sg1 poses1
    simp [isValid]

/-- The statement C7 at the sample scene, out of bounds. -/
theorem isValid_out_of_bounds_witness :
    (sampleQuery false).satisfiesBounds = false ∧
    ∃ s1, isValid (sampleEngine []) (sampleQuery false) sampleState = .ok (false, s1) ∧
      s1.oob_count = (sampleState.oob_count + 1) % 2 ^ 32 ∧
      (sampleState.oob_count + 1 < 2 ^ 32 → s1.oob_count = sampleState.oob_count + 1) ∧
      s1.robot_collisions = sampleState.robot_collisions ∧
      s1.object_collisions = sampleState.object_collisions ∧
      s1.obstacle_collisions = sampleState.obstacle_collisions ∧
      s1.node_map = sampleState.node_map ∧
      s1.broadphase_filter = sampleState.broadphase_filter ∧
      s1.manifolds = sampleState.manifolds ∧
      s1.self_coll_count = sampleState.self_coll_count ∧
      s1.world_coll_count = sampleState.world_coll_count ∧
      (∀ (E1 : Engine) (sg1 : Graph) (poses1 : List (Node × Transform3r)),
        isValid E1 ⟨false, sg1, poses1⟩ sampleState = .ok (false, s1)) :=
  ⟨rfl, isValid_out_of_bounds (sampleEngine []) (sampleQuery false) sampleState rfl⟩

/-! ## The contact threshold -/

/-- C1: for a state within bounds (every robot link that the traversal visits having its
body), and whatever manifolds detection returns, `isValid` returns a result, and the
result is false exactly when some contact point of some manifold has distance
`<= -PENETRATION_EPSILON`.  With a positive tolerance, manifolds whose contacts all have
zero or positive distance give true and a false result comes with a contact of negative
distance; a contact at exactly `-PENETRATION_EPSILON` gives false. -/
theorem isValid_false_iff_penetrating (E : Engine) (q : Query) (s : CheckerState)
    (hb : q.satisfiesBounds = true) (hbodies : robotLinksHaveBodies s q.poses) :
    ∃ s1 result s2, update_transforms E s q.poses = .ok s1 ∧
      isValid E q s = .ok (result, s2) ∧
      (result = false ↔ ∃ m ∈ E.detect (setSceneGraph s1 q.sg), ∃ d ∈ m.contacts,
        d ≤ -E.PENETRATION_EPSILON) ∧
      (0 < E.PENETRATION_EPSILON →
        (∀ m ∈ E.detect (setSceneGraph s1 q.sg), ∀ d ∈ m.contacts, 0 ≤ d) → result = true) ∧
      (0 < E.PENETRATION_EPSILON → result = false →
        ∃ m ∈ E.detect (setSceneGraph s1 q.sg), ∃ d ∈ m.contacts, d < 0) ∧
      ((∃ m ∈ E.detect (setSceneGraph s1 q.sg), -E.PENETRATION_EPSILON ∈ m.contacts) →
        result = false) := by
  obtain ⟨s1, hp⟩ := update_transforms_completes E q.poses s hbodies
  have key : ∀ s0 : CheckerState,
      (manifoldLoop E s0 (E.detect (setSceneGraph s1 q.sg))).1 = false ↔
      ∃ m ∈ E.detect (setSceneGraph s1 q.sg), ∃ d ∈ m.contacts,
        d ≤ -E.PENETRATION_EPSILON := by
    intro s0
    rw [manifoldLoop_result]
    simp only [contactLoop_eq_true_iff]
  refine ⟨s1, _, _, hp, by rw [isValid_in_bounds E q s s1 hb hp], key _, ?_, ?_, ?_⟩
  · intro heps hall
    cases hres : (manifoldLoop E
        { setSceneGraph s1 q.sg with manifolds := E.detect (setSceneGraph s1 q.sg) }
        (E.detect (setSceneGraph s1 q.sg))).1 with
    | true => rfl
    | false =>
      obtain ⟨m, hm, d, hdm, hle⟩ := (key _).1 hres
      have := hall m hm d hdm
      linarith
  · intro heps hres
    obtain ⟨m, hm, d, hdm, hle⟩ := (key _).1 hres
    exact ⟨m, hm, d, hdm, by linarith⟩
  · rintro ⟨m, hm, hmem⟩
    exact (key _).2 ⟨m, hm, _, hmem, le_refl _⟩

theorem sample_update_transforms (ms : List Manifold) (b : Bool) :
    update_transforms (sampleEngine ms) sampleState (sampleQuery b).poses = .ok sampleSynced := by
  rfl

theorem sample_robotLinksHaveBodies (b : Bool) :
    robotLinksHaveBodies sampleState (sampleQuery b).poses := by
  intro p hp _ hobst hobj
  simp only [sampleQuery, List.mem_cons, List.mem_singleton, List.not_mem_nil, or_false] at hp
  rcases hp with rfl | rfl | rfl | rfl
  · rfl
  · rfl
  · exact absurd hobj (by decide)
  · exact absurd hobst (by decide)

/-- The statement C1 at the sample scene: a grazing contact and a contact at the
tolerance between the arm and the wall. -/
theorem isValid_false_iff_penetrating_witness :
    (sampleQuery true).satisfiesBounds = true ∧
    robotLinksHaveBodies sampleState (sampleQuery true).poses ∧
    ∃ s2, isValid (sampleEngine [⟨"arm", "wall", [0, -1]⟩]) (sampleQuery true) sampleState =
      .ok (false, s2) := by
  obtain ⟨s1, result, s2, _, h2, _, _, _, h6⟩ :=
    isValid_false_iff_penetrating (sampleEngine [⟨"arm", "wall", [0, -1]⟩]) (sampleQuery true)
      sampleState rfl (sample_robotLinksHaveBodies true)
  have hres : result = false := h6 ⟨⟨"arm", "wall", [0, -1]⟩, by simp [sampleEngine], by
    simp [sampleEngine]⟩
  exact ⟨rfl, sample_robotLinksHaveBodies true, s2, hres ▸ h2⟩

/-! ## Classification of the first disqualifying contact -/

theorem update_transforms_detect_irrelevant (E : Engine) (det : CheckerState → List Manifold)
    (poses : List (Node × Transform3r)) :
    ∀ s : CheckerState,
      update_transforms { E with detect := det } s poses = update_transforms E s poses := by
  induction poses with
  | nil => intro s; rfl
  | cons p rest ih =>
    intro s
    obtain ⟨node, coll_tf⟩ := p
    have hstep : pose_helper { E with detect := det } s node coll_tf =
        pose_helper E s node coll_tf := rfl
    simp only [update_transforms, hstep]
    cases pose_helper E s node coll_tf with
    | error e => rfl
    | ok s1 => exact ih s1

theorem contactLoop_detect_irrelevant (E : Engine) (det : CheckerState → List Manifold)
    (cs : List ℚ) : contactLoop { E with detect := det } cs = contactLoop E cs := by
  induction cs with
  | nil => rfl
  | cons d ds ih => simp only [contactLoop, ih]

theorem contactLoop_first (E : Engine) (cpre cpost : List ℚ) (d : ℚ)
    (hd : d ≤ -E.PENETRATION_EPSILON) : contactLoop E (cpre ++ d :: cpost) = true :=
  (contactLoop_eq_true_iff E _).2 ⟨d, by simp, hd⟩

theorem contactLoop_none (E : Engine) (cs : List ℚ)
    (h : ∀ d ∈ cs, ¬ d ≤ -E.PENETRATION_EPSILON) : contactLoop E cs = false := by
  cases hc : contactLoop E cs with
  | false => rfl
  | true =>
    obtain ⟨d, hd, hle⟩ := (contactLoop_eq_true_iff E cs).1 hc
    exact absurd hle (h d hd)

/-- The state in which `isValid` stops at the first manifold with a disqualifying contact. -/
theorem isValid_stops_at (E : Engine) (q : Query) (s s1 : CheckerState)
    (pre post : List Manifold) (m : Manifold)
    (hb : q.satisfiesBounds = true) (hp : update_transforms E s q.poses = .ok s1)
    (hd : E.detect (setSceneGraph s1 q.sg) = pre ++ m :: post)
    (hpre : ∀ m1 ∈ pre, ∀ d1 ∈ m1.contacts, ¬ d1 ≤ -E.PENETRATION_EPSILON)
    (hm : contactLoop E m.contacts = true) :
    isValid E q s =
      .ok (false,
        { classify { setSceneGraph s1 q.sg with manifolds := pre ++ m :: post } m with
          manifolds := pre.map clearManifold ++ clearManifold m :: post }) := by
  rw [isValid_in_bounds E q s s1 hb hp, hd,
    manifoldLoop_first E _ pre post m (fun m1 h1 => contactLoop_none E _ (hpre m1 h1)) hm]

/-- C3: when the manifolds returned by detection are `pre ++ m :: post`, no contact of
`pre` is disqualifying, and the contacts of `m` are `cpre ++ d :: cpost` with `d` the
first disqualifying one, `isValid` returns false; `self_coll_count` is incremented (as an
`unsigned int`) when both names of `m` resolve to nodes that are neither objects nor
obstacles, and `world_coll_count` is incremented otherwise, in particular when a name
is unresolved or resolves to an obstacle; the other counters keep their values; the
manifolds after `m` are left as detection returned them, and neither they nor the
contacts after `d` influence the outcome. -/
theorem isValid_classifies_first_contact (E : Engine) (q : Query) (s s1 : CheckerState)
    (pre post : List Manifold) (m : Manifold) (cpre cpost : List ℚ) (d : ℚ)
    (hb : q.satisfiesBounds = true) (hp : update_transforms E s q.poses = .ok s1)
    (hd : E.detect (setSceneGraph s1 q.sg) = pre ++ m :: post)
    (hpre : ∀ m1 ∈ pre, ∀ d1 ∈ m1.contacts, ¬ d1 ≤ -E.PENETRATION_EPSILON)
    (hm : m.contacts = cpre ++ d :: cpost)
    (_hcpre : ∀ d1 ∈ cpre, ¬ d1 ≤ -E.PENETRATION_EPSILON)
    (hdis : d ≤ -E.PENETRATION_EPSILON) :
    ∃ s2, isValid E q s = .ok (false, s2) ∧
      (resolvesToRobotLinks s1.node_map m →
        s2.self_coll_count = (s.self_coll_count + 1) % 2 ^ 32 ∧
        (s.self_coll_count + 1 < 2 ^ 32 → s2.self_coll_count = s.self_coll_count + 1) ∧
        s2.world_coll_count = s.world_coll_count) ∧
      (¬ resolvesToRobotLinks s1.node_map m →
        s2.world_coll_count = (s.world_coll_count + 1) % 2 ^ 32 ∧
        (s.world_coll_count + 1 < 2 ^ 32 → s2.world_coll_count = s.world_coll_count + 1) ∧
        s2.self_coll_count = s.self_coll_count) ∧
      ((∃ name, (name = m.body0 ∨ name = m.body1) ∧
          ∀ n, s1.node_map.lookup name = some (some n) → n.is_obstacle = true) →
        s2.world_coll_count = (s.world_coll_count + 1) % 2 ^ 32 ∧
        s2.self_coll_count = s.self_coll_count) ∧
      s2.oob_count = s.oob_count ∧
      s2.manifolds = pre.map clearManifold ++ clearManifold m :: post ∧
      (∀ (det : CheckerState → List Manifold) (cpost1 : List ℚ) (post1 : List Manifold),
        det (setSceneGraph s1 q.sg) =
          pre ++ { m with contacts := cpre ++ d :: cpost1 } :: post1 →
        ∃ s3, isValid { E with detect := det } q s = .ok (false, s3) ∧
          s3.self_coll_count = s2.self_coll_count ∧
          s3.world_coll_count = s2.world_coll_count ∧
          s3.oob_count = s2.oob_count ∧ s3.counter = s2.counter ∧
          s3.node_map = s2.node_map ∧ s3.robot_collisions = s2.robot_collisions ∧
          s3.manifolds = pre.map clearManifold ++ clearManifold m :: post1) := by
  have hcl : contactLoop E m.contacts = true := by
    rw [hm]; exact contactLoop_first E cpre cpost d hdis
  obtain ⟨f1, f2, f3, f4, f5, f6, f7, f8⟩ := update_transforms_frame E q.poses s s1 hp
  have hworld : ¬ resolvesToRobotLinks s1.node_map m →
      (classify { setSceneGraph s1 q.sg with manifolds := pre ++ m :: post } m).world_coll_count =
        (s.world_coll_count + 1) % 2 ^ 32 ∧
      (classify { setSceneGraph s1 q.sg with manifolds := pre ++ m :: post } m).self_coll_count =
        s.self_coll_count := by
    intro hres
    have ht : selfTest s1.node_map m = false := by
      cases ht : selfTest s1.node_map m with
      | false => rfl
      | true => exact absurd ((selfTest_iff _ _).1 ht) hres
    rw [classify_eq]
    simp [setSceneGraph, ht, incr_u32, f2, f3]
  refine ⟨_, isValid_stops_at E q s s1 pre post m hb hp hd hpre hcl, ?_, ?_, ?_, ?_, rfl, ?_⟩
  · intro hres
    have ht : selfTest s1.node_map m = true := (selfTest_iff _ _).2 hres
    have e : (classify { setSceneGraph s1 q.sg with manifolds := pre ++ m :: post }
        m).self_coll_count = (s.self_coll_count + 1) % 2 ^ 32 := by
      rw [classify_eq]; simp [setSceneGraph, ht, incr_u32, f2]
    refine ⟨e, fun h => ?_, ?_⟩
    · show (classify _ m).self_coll_count = _
      rw [e]; exact Nat.mod_eq_of_lt h
    · show (classify _ m).world_coll_count = _
      rw [classify_eq]; simp [setSceneGraph, ht, f3]
  · intro hres
    obtain ⟨e1, e2⟩ := hworld hres
    exact ⟨e1, fun h => by
      show (classify _ m).world_coll_count = _
      rw [e1]; exact Nat.mod_eq_of_lt h, e2⟩
  · rintro ⟨name, hname, hobst⟩
    apply hworld
    rintro ⟨n1, n2, h0, h1, a1, a2, a3, a4⟩
    rcases hname with rfl | rfl
    · have := hobst n1 h0; simp [a2] at this
    · have := hobst n2 h1; simp [a4] at this
  · show (classify _ m).oob_count = _
    rw [classify_eq]; split <;> simp [setSceneGraph, f1]
  · intro det cpost1 post1 hdet
    have hp1 : update_transforms { E with detect := det } s q.poses = .ok s1 := by
      rw [update_transforms_detect_irrelevant]; exact hp
    have hcl1 : contactLoop { E with detect := det }
        ({ m with contacts := cpre ++ d :: cpost1 } : Manifold).contacts = true :=
      contactLoop_first { E with detect := det } cpre cpost1 d hdis
    refine ⟨_, isValid_stops_at { E with detect := det } q s s1 pre post1 _ hb hp1 hdet hpre hcl1,
      ?_, ?_, ?_, ?_, ?_, ?_, rfl⟩ <;>
    · simp only [classify_eq, selfTest, setSceneGraph]
      split <;> rfl

/-- The statement C3 at the sample scene: a grazing manifold, then two robot links in
penetration, then the arm in the wall. -/
theorem isValid_classifies_first_contact_witness :
    (sampleQuery true).satisfiesBounds = true ∧
    update_transforms (sampleEngine [grazeManifold, selfManifold, wallManifold]) sampleState
      (sampleQuery true).poses = .ok sampleSynced ∧
    (sampleEngine [grazeManifold, selfManifold, wallManifold]).detect
      (setSceneGraph sampleSynced (sampleQuery true).sg) =
        [grazeManifold] ++ selfManifold :: [wallManifold] ∧
    (∀ m1 ∈ [grazeManifold], ∀ d1 ∈ m1.contacts,
      ¬ d1 ≤ -(sampleEngine [grazeManifold, selfManifold, wallManifold]).PENETRATION_EPSILON) ∧
    selfManifold.contacts = [0] ++ (-2) :: [-5] ∧
    (∀ d1 ∈ [(0 : ℚ)],
      ¬ d1 ≤ -(sampleEngine [grazeManifold, selfManifold, wallManifold]).PENETRATION_EPSILON) ∧
    (-2 : ℚ) ≤ -(sampleEngine [grazeManifold, selfManifold, wallManifold]).PENETRATION_EPSILON ∧
    resolvesToRobotLinks sampleSynced.node_map selfManifold ∧
    ∃ s2, isValid (sampleEngine [grazeManifold, selfManifold, wallManifold]) (sampleQuery true)
        sampleState = .ok (false, s2) ∧
      s2.self_coll_count = 1 ∧ s2.world_coll_count = 0 ∧ s2.oob_count = 0 ∧
      s2.manifolds = [clearManifold grazeManifold, clearManifold selfManifold, wallManifold] := by
  have h1 : ∀ m1 ∈ [grazeManifold], ∀ d1 ∈ m1.contacts,
      ¬ d1 ≤ -(sampleEngine [grazeManifold, selfManifold, wallManifold]).PENETRATION_EPSILON := by
    decide
  have h2 : ∀ d1 ∈ [(0 : ℚ)],
      ¬ d1 ≤ -(sampleEngine [grazeManifold, selfManifold, wallManifold]).PENETRATION_EPSILON := by
    decide
  have h3 : (-2 : ℚ) ≤
      -(sampleEngine [grazeManifold, selfManifold, wallManifold]).PENETRATION_EPSILON := by
    decide
  have h4 : resolvesToRobotLinks sampleSynced.node_map selfManifold :=
    ⟨armNode, handNode, rfl, rfl, rfl, rfl, rfl, rfl⟩
  obtain ⟨s2, e, a, _, _, b, c, _⟩ :=
    isValid_classifies_first_contact (sampleEngine [grazeManifold, selfManifold, wallManifold])
      (sampleQuery true) sampleState sampleSynced [grazeManifold] [wallManifold] selfManifold
      [0] [-5] (-2) rfl rfl rfl h1 rfl h2 h3
  exact ⟨rfl, rfl, rfl, h1, rfl, h2, h3, h4, s2, e, (a h4).1, (a h4).2.2, b, c⟩

/-! ## Names that do not resolve -/

/-- At the sample scene the obstacle `wall` is absent from the node map after the
poses are written, the contact between `arm` and `wall` is disqualifying, and
`isValid` counts it as a world collision: `world_coll_count` goes from 0 to 1. -/
theorem unresolved_name_counted_as_world :
    sampleSynced.node_map.lookup wallManifold.body1 = none ∧
    (-3 : ℚ) ≤ -(sampleEngine [wallManifold]).PENETRATION_EPSILON ∧
    sampleState.world_coll_count = 0 ∧
    ∃ s2, isValid (sampleEngine [wallManifold]) (sampleQuery true) sampleState =
        .ok (false, s2) ∧ s2.world_coll_count = 1 :=
  ⟨rfl, by decide, rfl, _, rfl, rfl⟩

/-- C8 (amended): when the first disqualifying contact belongs to a manifold one of whose
body names is absent from the node map, `isValid` raises no fault and returns false, and
the contact is classified as a world collision: `world_coll_count` is incremented (as an
`unsigned int`), `self_coll_count` and `oob_count` keep their values. -/
theorem isValid_unresolved_name_is_world (E : Engine) (q : Query) (s s1 : CheckerState)
    (pre post : List Manifold) (m : Manifold) (cpre cpost : List ℚ) (d : ℚ)
    (hb : q.satisfiesBounds = true) (hp : update_transforms E s q.poses = .ok s1)
    (hd : E.detect (setSceneGraph s1 q.sg) = pre ++ m :: post)
    (hpre : ∀ m1 ∈ pre, ∀ d1 ∈ m1.contacts, ¬ d1 ≤ -E.PENETRATION_EPSILON)
    (hm : m.contacts = cpre ++ d :: cpost)
    (_hcpre : ∀ d1 ∈ cpre, ¬ d1 ≤ -E.PENETRATION_EPSILON)
    (hdis : d ≤ -E.PENETRATION_EPSILON)
    (habsent : s1.node_map.lookup m.body0 = none ∨ s1.node_map.lookup m.body1 = none) :
    ∃ s2, isValid E q s = .ok (false, s2) ∧
      s2.world_coll_count = (s.world_coll_count + 1) % 2 ^ 32 ∧
      (s.world_coll_count + 1 < 2 ^ 32 → s2.world_coll_count = s.world_coll_count + 1) ∧
      s2.self_coll_count = s.self_coll_count ∧
      s2.oob_count = s.oob_count := by
  have hcl : contactLoop E m.contacts = true := by
    rw [hm]; exact contactLoop_first E cpre cpost d hdis
  obtain ⟨f1, f2, f3, f4, f5, f6, f7, f8⟩ := update_transforms_frame E q.poses s s1 hp
  have ht : selfTest s1.node_map m = false := by
    unfold selfTest
    rcases habsent with h | h
    · simp [h]
    · rw [h]
      cases (s1.node_map.lookup m.body0).getD none <;> rfl
  have e : (classify { setSceneGraph s1 q.sg with manifolds := pre ++ m :: post }
      m).world_coll_count = (s.world_coll_count + 1) % 2 ^ 32 := by
    rw [classify_eq]; simp [setSceneGraph, ht, incr_u32, f3]
  refine ⟨_, isValid_stops_at E q s s1 pre post m hb hp hd hpre hcl, e, fun h => ?_, ?_, ?_⟩
  · show (classify _ m).world_coll_count = _
    rw [e]; exact Nat.mod_eq_of_lt h
  · show (classify _ m).self_coll_count = _
    rw [classify_eq]; simp [setSceneGraph, ht, f2]
  · show (classify _ m).oob_count = _
    rw [classify_eq]; simp [setSceneGraph, ht, f1]

/-- The statement C8 (amended) at the sample scene: the arm in the wall. -/
theorem isValid_unresolved_name_is_world_witness :
    (sampleQuery true).satisfiesBounds = true ∧
    update_transforms (sampleEngine [grazeManifold, wallManifold]) sampleState
      (sampleQuery true).poses = .ok sampleSynced ∧
    (sampleEngine [grazeManifold, wallManifold]).detect
      (setSceneGraph sampleSynced (sampleQuery true).sg) = [grazeManifold] ++ wallManifold :: [] ∧
    (∀ m1 ∈ [grazeManifold], ∀ d1 ∈ m1.contacts,
      ¬ d1 ≤ -(sampleEngine [grazeManifold, wallManifold]).PENETRATION_EPSILON) ∧
    wallManifold.contacts = [] ++ (-3) :: [] ∧
    (∀ d1 ∈ ([] : List ℚ),
      ¬ d1 ≤ -(sampleEngine [grazeManifold, wallManifold]).PENETRATION_EPSILON) ∧
    (-3 : ℚ) ≤ -(sampleEngine [grazeManifold, wallManifold]).PENETRATION_EPSILON ∧
    (sampleSynced.node_map.lookup wallManifold.body0 = none ∨
      sampleSynced.node_map.lookup wallManifold.body1 = none) ∧
    ∃ s2, isValid (sampleEngine [grazeManifold, wallManifold]) (sampleQuery true) sampleState =
        .ok (false, s2) ∧
      s2.world_coll_count = (sampleState.world_coll_count + 1) % 2 ^ 32 ∧
      (sampleState.world_coll_count + 1 < 2 ^ 32 →
        s2.world_coll_count = sampleState.world_coll_count + 1) ∧
      s2.self_coll_count = sampleState.self_coll_count ∧
      s2.oob_count = sampleState.oob_count :=
  ⟨rfl, rfl, rfl, by decide, rfl, by decide, by decide, Or.inr rfl,
    isValid_unresolved_name_is_world (sampleEngine [grazeManifold, wallManifold])
      (sampleQuery true) sampleState sampleSynced [grazeManifold] [] wallManifold [] [] (-3)
      rfl rfl rfl (by decide) rfl (by decide) (by decide) (Or.inr rfl)⟩

/-! ## Pose synchronisation -/

theorem bitsetTest_eq_ok_true (bl : List (List Bool)) (c : Bool) (idx1 idx2 : Int) :
    bitsetTest bl c idx1 idx2 = .ok true ↔
      c = true ∧ (idx1 < 0 ∨ idx2 < 0 ∨ readBit bl idx1.toNat idx2.toNat = .ok false) := by
  unfold bitsetTest
  cases c with
  | false => simp
  | true =>
    by_cases h1 : idx1 < 0
    · simp [h1]
    · by_cases h2 : idx2 < 0
      · simp [h1, h2]
      · cases hr : readBit bl idx1.toNat idx2.toNat with
        | error e => simp [h1, h2]
        | ok b => cases b <;> simp [h1, h2]

/-- C2: `needBroadphaseCollision` returns true exactly when (1) each group meets the
other mask, (2) one of the two filter indices is negative or the bit
`blacklist[idx1][idx2]` is clear, and (3) neither node `has_child` the other.  It returns
a result whenever the bit is not read or is read in range.  With an unset index the
result is decided by (1) and (3) alone, whatever the blacklist; with nodes in the
`has_child` relation no blacklist makes the result true. -/
theorem needBroadphaseCollision_iff (self : NeighborLinksFilter)
    (proxy0 proxy1 : btBroadphaseProxy) :
    (self.needBroadphaseCollision proxy0 proxy1 = .ok true ↔
      (Int.land proxy0.m_collisionFilterGroup proxy1.m_collisionFilterMask ≠ 0 ∧
        Int.land proxy1.m_collisionFilterGroup proxy0.m_collisionFilterMask ≠ 0) ∧
      (proxy0.m_clientObject.userIndex < 0 ∨ proxy1.m_clientObject.userIndex < 0 ∨
        readBit self.blacklist proxy0.m_clientObject.userIndex.toNat
          proxy1.m_clientObject.userIndex.toNat = .ok false) ∧
      (self.sg.has_child (self.sg.find proxy0.m_clientObject.userPointer)
          (self.sg.find proxy1.m_clientObject.userPointer) = false ∧
        self.sg.has_child (self.sg.find proxy1.m_clientObject.userPointer)
          (self.sg.find proxy0.m_clientObject.userPointer) = false)) ∧
    ((proxy0.m_clientObject.userIndex < 0 ∨ proxy1.m_clientObject.userIndex < 0 ∨
        ∃ b, readBit self.blacklist proxy0.m_clientObject.userIndex.toNat
          proxy1.m_clientObject.userIndex.toNat = .ok b) →
      ∃ r, self.needBroadphaseCollision proxy0 proxy1 = .ok r) ∧
    ((proxy0.m_clientObject.userIndex < 0 ∨ proxy1.m_clientObject.userIndex < 0) →
      ∀ bl : List (List Bool),
        ({ self with blacklist := bl } : NeighborLinksFilter).needBroadphaseCollision
            proxy0 proxy1 =
          .ok ((Int.land proxy0.m_collisionFilterGroup proxy1.m_collisionFilterMask != 0 &&
              Int.land proxy1.m_collisionFilterGroup proxy0.m_collisionFilterMask != 0) &&
            !(self.sg.has_child (self.sg.find proxy0.m_clientObject.userPointer)
                (self.sg.find proxy1.m_clientObject.userPointer) ||
              self.sg.has_child (self.sg.find proxy1.m_clientObject.userPointer)
                (self.sg.find proxy0.m_clientObject.userPointer)))) ∧
    ((self.sg.has_child (self.sg.find proxy0.m_clientObject.userPointer)
          (self.sg.find proxy1.m_clientObject.userPointer) = true ∨
        self.sg.has_child (self.sg.find proxy1.m_clientObject.userPointer)
          (self.sg.find proxy0.m_clientObject.userPointer) = true) →
      ∀ (bl : List (List Bool)) (r : Bool),
        ({ self with blacklist := bl } : NeighborLinksFilter).needBroadphaseCollision
            proxy0 proxy1 = .ok r → r = false) := by
  refine ⟨?_, ?_, ?_, ?_⟩
  · unfold NeighborLinksFilter.needBroadphaseCollision
    simp only []
    cases ht : bitsetTest self.blacklist
        (Int.land proxy0.m_collisionFilterGroup proxy1.m_collisionFilterMask != 0 &&
          Int.land proxy1.m_collisionFilterGroup proxy0.m_collisionFilterMask != 0)
        proxy0.m_clientObject.userIndex proxy1.m_clientObject.userIndex with
    | error e =>
      have hne := ht ▸ (bitsetTest_eq_ok_true self.blacklist _ _ _).not
      simp only [reduceCtorEq, not_false_eq_true, true_iff] at hne
      constructor
      · intro h; exact absurd h (by simp)
      · rintro ⟨⟨g1, g2⟩, hb, _⟩
        exact absurd ⟨by simp [g1, g2], hb⟩ hne
    | ok c =>
      cases c with
      | false =>
        have hne := ht ▸ (bitsetTest_eq_ok_true self.blacklist _ _ _).not
        simp only [Except.ok.injEq, Bool.false_eq_true, not_false_eq_true, true_iff] at hne
        constructor
        · intro h; simp at h
        · rintro ⟨⟨g1, g2⟩, hb, _⟩
          exact absurd ⟨by simp [g1, g2], hb⟩ hne
      | true =>
        obtain ⟨hc, hb⟩ := (bitsetTest_eq_ok_true self.blacklist _ _ _).1 ht
        simp only [Bool.and_eq_true, bne_iff_ne, ne_eq] at hc
        simp [hc.1, hc.2, hb]
  · intro h
    unfold NeighborLinksFilter.needBroadphaseCollision
    simp only []
    have : ∃ c, bitsetTest self.blacklist
        (Int.land proxy0.m_collisionFilterGroup proxy1.m_collisionFilterMask != 0 &&
          Int.land proxy1.m_collisionFilterGroup proxy0.m_collisionFilterMask != 0)
        proxy0.m_clientObject.userIndex proxy1.m_clientObject.userIndex = .ok c := by
      unfold bitsetTest
      split
      · rcases h with h | h | ⟨b, h⟩
        · simp [h]
        · by_cases h1 : proxy0.m_clientObject.userIndex < 0 <;> simp [h1, h]
        · by_cases h1 : proxy0.m_clientObject.userIndex < 0
          · simp [h1]
          · by_cases h2 : proxy1.m_clientObject.userIndex < 0 <;> simp [h1, h2, h]
      · exact ⟨false, rfl⟩
    obtain ⟨c, hc⟩ := this
    rw [hc]
    exact ⟨_, rfl⟩
  · intro h bl
    unfold NeighborLinksFilter.needBroadphaseCollision
    simp only []
    have : bitsetTest bl
        (Int.land proxy0.m_collisionFilterGroup proxy1.m_collisionFilterMask != 0 &&
          Int.land proxy1.m_collisionFilterGroup proxy0.m_collisionFilterMask != 0)
        proxy0.m_clientObject.userIndex proxy1.m_clientObject.userIndex =
        .ok (Int.land proxy0.m_collisionFilterGroup proxy1.m_collisionFilterMask != 0 &&
          Int.land proxy1.m_collisionFilterGroup proxy0.m_collisionFilterMask != 0) := by
      unfold bitsetTest
      split
      · rename_i hc
        rcases h with h | h
        · simp [h, hc]
        · by_cases h1 : proxy0.m_clientObject.userIndex < 0 <;> simp [h1, h, hc]
      · rename_i hc
        simp only [Bool.not_eq_true] at hc
        rw [hc]
    rw [this]
  · intro h bl r hr
    unfold NeighborLinksFilter.needBroadphaseCollision at hr
    simp only [] at hr
    split at hr
    · exact absurd hr (by simp)
    · injection hr with hr
      rw [← hr]
      rcases h with h | h <;> simp [h]

/-- The statement C2 at the sample filter: `arm` against `wall`, whose index is unset. -/
theorem needBroadphaseCollision_iff_witness :
    (armProxy.m_clientObject.userIndex < 0 ∨ wallProxy.m_clientObject.userIndex < 0) ∧
    sampleState.broadphase_filter.needBroadphaseCollision armProxy wallProxy = .ok true ∧
    ∀ bl : List (List Bool),
      ({ sampleState.broadphase_filter with blacklist := bl } :
        NeighborLinksFilter).needBroadphaseCollision armProxy wallProxy = .ok true :=
  ⟨Or.inr (by decide), rfl,
    (needBroadphaseCollision_iff sampleState.broadphase_filter armProxy wallProxy).2.2.1
      (Or.inr (by decide))⟩

/-! ## Lemmas on the constructor of the filter -/

theorem firstSeen_subset (xs : List String) : ∀ y, y ∈ firstSeen xs ↔ y ∈ xs := by
  induction xs with
  | nil => simp [firstSeen]
  | cons x rest ih =>
    intro y
    by_cases hy : y = x
    · simp [firstSeen, hy]
    · simp [firstSeen, List.mem_filter, ih, hy]

theorem firstSeen_nodup (xs : List String) : (firstSeen xs).Nodup := by
  induction xs with
  | nil => simp [firstSeen]
  | cons x rest ih =>
    simp only [firstSeen, List.nodup_cons, List.mem_filter, bne_self_eq_false,
      Bool.false_eq_true, and_false, not_false_eq_true, true_and]
    exact ih.filter _

theorem firstSeen_length (xs : List String) : (firstSeen xs).length = xs.toFinset.card := by
  rw [← List.toFinset_card_of_nodup (firstSeen_nodup xs)]
  congr 1
  ext y
  simp [firstSeen_subset]

theorem foldl_addName (xs : List String) : ∀ acc : List String,
    xs.foldl addName acc = acc ++ (firstSeen xs).filter (fun y => decide (y ∉ acc)) := by
  induction xs with
  | nil => intro acc; simp [firstSeen]
  | cons x rest ih =>
    intro acc
    simp only [List.foldl_cons, ih, firstSeen]
    by_cases hx : x ∈ acc
    · simp only [addName, hx, if_true, List.filter_cons, not_true_eq_false, decide_False,
        Bool.false_eq_true, if_false, List.filter_filter]
      congr 1
      apply List.filter_congr
      intro y _
      by_cases hy : y ∈ acc
      · simp [hy]
      · have : y ≠ x := fun h => hy (h ▸ hx)
        simp [hy, this]
    · simp only [addName, hx, if_false, List.filter_cons, not_false_eq_true, decide_True,
        if_true, List.filter_filter, List.append_assoc, List.singleton_append]
      congr 2
      apply List.filter_congr
      intro y _
      by_cases hy : y ∈ acc
      · simp [hy]
      · by_cases hyx : y = x <;> simp [hy, hyx]

theorem foldl_addName_nil (xs : List String) : xs.foldl addName [] = firstSeen xs := by
  rw [foldl_addName]
  simp

theorem addName_prefix (acc : List String) (x : String) :
    ∃ ext, addName acc x = acc ++ ext := by
  unfold addName
  split
  · exact ⟨[], by simp⟩
  · exact ⟨[x], rfl⟩

theorem foldl_addName_prefix (xs : List String) : ∀ acc : List String,
    ∃ ext, xs.foldl addName acc = acc ++ ext := by
  intro acc
  exact ⟨_, foldl_addName xs acc⟩

theorem readBit_ok_iff (bl : List (List Bool)) (i j : Nat) (b : Bool) :
    readBit bl i j = .ok b ↔ ∃ row, bl[i]? = some row ∧ row[j]? = some b := by
  unfold readBit
  cases h1 : bl[i]? with
  | none => simp
  | some row =>
    cases h2 : row[j]? with
    | none => simp [h2]
    | some c => simp [h2]

theorem lookup_singleton (y x : String) (v : Nat) :
    List.lookup y [(x, v)] = if y = x then some v else none := by
  by_cases h : y = x
  · subst h; simp [List.lookup]
  · have : (y == x) = false := by simpa using h
    simp [List.lookup, this, h]

theorem emplaceLink_found (n : Nat) (t : FilterTable) (x : String) (v : Nat)
    (h : t.index_map.lookup x = some v) : emplaceLink n t x = (t, v) := by
  simp [emplaceLink, try_emplace, h]

theorem emplaceLink_new (n : Nat) (t : FilterTable) (x : String)
    (h : t.index_map.lookup x = none) :
    emplaceLink n t x =
      ({ idx := t.idx + 1, index_map := t.index_map ++ [(x, t.idx)],
         blacklist := t.blacklist ++ [List.replicate n false] }, t.idx) := by
  simp [emplaceLink, try_emplace, h]

theorem TableInv.mem_iff {n : Nat} {acc : List String} {t : FilterTable}
    (h : TableInv n acc t) (x : String) : x ∈ acc ↔ ∃ i, t.index_map.lookup x = some i := by
  rw [List.mem_iff_getElem?]
  constructor
  · rintro ⟨i, hi⟩; exact ⟨i, (h.lookup_iff x i).2 hi⟩
  · rintro ⟨i, hi⟩; exact ⟨i, (h.lookup_iff x i).1 hi⟩

theorem TableInv.index_lt {n : Nat} {acc : List String} {t : FilterTable}
    (h : TableInv n acc t) {x : String} {i : Nat} (hx : t.index_map.lookup x = some i) :
    i < acc.length := by
  have := (h.lookup_iff x i).1 hx
  exact (List.getElem?_eq_some.1 this).1

theorem emplaceLink_spec (n : Nat) (acc : List String) (t : FilterTable) (x : String)
    (h : TableInv n acc t) :
    TableInv n (addName acc x) (emplaceLink n t x).1 ∧
    (addName acc x)[(emplaceLink n t x).2]? = some x ∧
    (addName acc x = acc ∨ (addName acc x).length = (emplaceLink n t x).2 + 1) ∧
    (∀ i j, readBit (emplaceLink n t x).1.blacklist i j = .ok true ↔
      readBit t.blacklist i j = .ok true) := by
  cases hl : t.index_map.lookup x with
  | some v =>
    have hmem : x ∈ acc := (h.mem_iff x).2 ⟨v, hl⟩
    have hadd : addName acc x = acc := by simp [addName, hmem]
    rw [emplaceLink_found n t x v hl, hadd]
    exact ⟨h, (h.lookup_iff x v).1 hl, Or.inl rfl, fun _ _ => Iff.rfl⟩
  | none =>
    have hmem : x ∉ acc := by
      intro hx
      obtain ⟨i, hi⟩ := (h.mem_iff x).1 hx
      rw [hl] at hi; exact absurd hi (by simp)
    have hadd : addName acc x = acc ++ [x] := by simp [addName, hmem]
    rw [emplaceLink_new n t x hl, hadd]
    refine ⟨?_, ?_, Or.inr ?_, ?_⟩
    · constructor
      · intro y i
        show List.lookup y (t.index_map ++ [(x, t.idx)]) = some i ↔ _
        rw [List.lookup_append, lookup_singleton, h.idx_eq]
        by_cases hi : i < acc.length
        · rw [List.getElem?_append_left hi, ← h.lookup_iff y i]
          cases hy : t.index_map.lookup y with
          | some i1 => simp
          | none =>
            by_cases hyx : y = x
            · simp [hyx]; omega
            · simp [hyx]
        · rw [List.getElem?_append_right (Nat.le_of_not_lt hi)]
          cases hy : t.index_map.lookup y with
          | some i1 =>
            have hlt := h.index_lt hy
            have hne : y ≠ x := by
              intro hyx; rw [hyx, hl] at hy; exact absurd hy (by simp)
            have h1 : i1 ≠ i := by omega
            simp only [Option.or_some, Option.some.injEq, h1, false_iff]
            intro hget
            have := List.getElem?_eq_some.1 hget
            obtain ⟨_, hx1⟩ := this
            simp at hx1
            exact hne hx1.symm
          | none =>
            by_cases hyx : y = x
            · subst hyx
              simp only [Option.none_or, if_true, Option.some.injEq]
              constructor
              · intro hi1; subst hi1; simp
              · intro hget
                have := (List.getElem?_eq_some.1 hget).1
                simp at this
                omega
            · simp only [Option.none_or, hyx, if_false]
              constructor
              · intro hc; exact absurd hc (by simp)
              · intro hget
                obtain ⟨_, hx1⟩ := List.getElem?_eq_some.1 hget
                simp at hx1
                exact absurd hx1.symm hyx
      · simp [h.map_length]
      · simp [h.idx_eq]
      · simp [h.rows]
      · intro row hrow
        simp only [List.mem_append, List.mem_singleton] at hrow
        rcases hrow with hrow | hrow
        · exact h.width row hrow
        · rw [hrow]; simp
    · show (acc ++ [x])[t.idx]? = some x
      rw [h.idx_eq]; simp
    · show (acc ++ [x]).length = t.idx + 1
      rw [h.idx_eq]; simp
    · intro i j
      show readBit (t.blacklist ++ [List.replicate n false]) i j = .ok true ↔ _
      rw [readBit_ok_iff, readBit_ok_iff]
      by_cases hi : i < t.blacklist.length
      · rw [List.getElem?_append_left hi]
      · rw [List.getElem?_append_right (Nat.le_of_not_lt hi),
          List.getElem?_eq_none (Nat.le_of_not_lt hi)]
        constructor
        · rintro ⟨row, hrow, hbit⟩
          obtain ⟨_, hr⟩ := List.getElem?_eq_some.1 hrow
          simp at hr
          rw [← hr, List.getElem?_replicate] at hbit
          split at hbit <;> simp at hbit
        · rintro ⟨row, hrow, _⟩
          exact absurd hrow (by simp)

theorem setBit_ok (bl bl1 : List (List Bool)) (a b n : Nat)
    (hw : ∀ row ∈ bl, row.length = n) (h : setBit bl a b = .ok bl1) :
    a < bl.length ∧ b < n ∧ bl1.length = bl.length ∧ (∀ row ∈ bl1, row.length = n) ∧
    ∀ i j, readBit bl1 i j = .ok true ↔ readBit bl i j = .ok true ∨ (i = a ∧ j = b) := by
  unfold setBit at h
  cases hrow : bl[a]? with
  | none => rw [hrow] at h; exact absurd h (by simp)
  | some mask =>
    rw [hrow] at h
    simp only at h
    obtain ⟨ha, hma⟩ := List.getElem?_eq_some.1 hrow
    have hmask : mask.length = n := hw mask (hma ▸ List.getElem_mem ha)
    by_cases hb : b < mask.length
    · rw [if_pos hb] at h
      injection h with h
      subst h
      refine ⟨ha, hmask ▸ hb, by simp, ?_, ?_⟩
      · intro row hrow1
        rcases List.mem_or_eq_of_mem_set hrow1 with h1 | h1
        · exact hw row h1
        · rw [h1]; simp [hmask]
      · intro i j
        rw [readBit_ok_iff, readBit_ok_iff, List.getElem?_set]
        by_cases hai : a = i
        · subst hai
          simp only [if_true, ha, hrow, Option.some.injEq, exists_eq_left', true_and]
          rw [List.getElem?_set]
          by_cases hbj : b = j
          · subst hbj; simp [hb]
          · have : ¬ j = b := fun h => hbj h.symm
            simp [hbj, this]
        · have : ¬ i = a := fun h => hai h.symm
          simp [hai, this]
    · rw [if_neg hb] at h
      exact absurd h (by simp)

theorem setBit_succeeds (bl : List (List Bool)) (a b n : Nat)
    (hw : ∀ row ∈ bl, row.length = n) (ha : a < bl.length) (hb : b < n) :
    ∃ bl1, setBit bl a b = .ok bl1 := by
  unfold setBit
  have hrow : bl[a]? = some bl[a] := List.getElem?_eq_getElem ha
  have hlen : bl[a].length = n := hw _ (List.getElem_mem ha)
  rw [hrow]
  simp only [hlen, hb, if_true]
  exact ⟨_, rfl⟩

theorem setBit_bit_fault (bl : List (List Bool)) (a b n : Nat)
    (hw : ∀ row ∈ bl, row.length = n) (ha : a < bl.length) (hb : ¬ b < n) :
    setBit bl a b = .error .bitOutOfRange := by
  unfold setBit
  have hrow : bl[a]? = some bl[a] := List.getElem?_eq_getElem ha
  have hlen : bl[a].length = n := hw _ (List.getElem_mem ha)
  rw [hrow]
  simp only [hlen, hb, if_false]

theorem ctorStep_eq (n : Nat) (t : FilterTable) (line a b : String)
    (h0 : (fplus_split ',' true line)[0]? = some a)
    (h1 : (fplus_split ',' true line)[1]? = some b) :
    ctorStep n t line =
      if (emplaceLink n t a).2 < (emplaceLink n (emplaceLink n t a).1 b).1.blacklist.length ∧
          (emplaceLink n (emplaceLink n t a).1 b).2 <
            (emplaceLink n (emplaceLink n t a).1 b).1.blacklist.length then
        match setBit (emplaceLink n (emplaceLink n t a).1 b).1.blacklist (emplaceLink n t a).2
            (emplaceLink n (emplaceLink n t a).1 b).2 with
        | .error e => .error e
        | .ok bl1 =>
          match setBit bl1 (emplaceLink n (emplaceLink n t a).1 b).2 (emplaceLink n t a).2 with
          | .error e => .error e
          | .ok bl2 => .ok { (emplaceLink n (emplaceLink n t a).1 b).1 with blacklist := bl2 }
      else .error .rowOutOfRange := by
  unfold ctorStep
  simp only [h0, h1]

theorem ctorStep_links_fault (n : Nat) (t : FilterTable) (line : String)
    (h : (fplus_split ',' true line)[1]? = none) :
    ctorStep n t line = .error .linksOutOfRange := by
  unfold ctorStep
  simp only [h]
  split
  · rename_i heq1 heq2; simp at heq2
  · rfl

theorem ctorStep_ok (n : Nat) (acc : List String) (t t1 : FilterTable) (line : String)
    (hinv : TableInv n acc t) (hacc : acc.length ≤ n) (h : ctorStep n t line = .ok t1) :
    ∃ a b, (fplus_split ',' true line)[0]? = some a ∧
      (fplus_split ',' true line)[1]? = some b ∧
      TableInv n (addEntry acc a b) t1 ∧ (addEntry acc a b).length ≤ n ∧
      ∃ ia ib, (addEntry acc a b)[ia]? = some a ∧ (addEntry acc a b)[ib]? = some b ∧
        ∀ i j, readBit t1.blacklist i j = .ok true ↔
          readBit t.blacklist i j = .ok true ∨ (i = ia ∧ j = ib) ∨ (i = ib ∧ j = ia) := by
  cases h1 : (fplus_split ',' true line)[1]? with
  | none => rw [ctorStep_links_fault n t line h1] at h; exact absurd h (by simp)
  | some b =>
    cases h0 : (fplus_split ',' true line)[0]? with
    | none =>
      have hlen := List.getElem?_eq_none_iff.1 h0
      have := (List.getElem?_eq_some.1 h1).1
      omega
    | some a =>
      rw [ctorStep_eq n t line a b h0 h1] at h
      obtain ⟨i1, g1, l1, r1⟩ := emplaceLink_spec n acc t a hinv
      obtain ⟨i2, g2, l2, r2⟩ := emplaceLink_spec n (addName acc a) (emplaceLink n t a).1 b i1
      split at h
      · cases hs1 : setBit (emplaceLink n (emplaceLink n t a).1 b).1.blacklist
            (emplaceLink n t a).2 (emplaceLink n (emplaceLink n t a).1 b).2 with
        | error e => rw [hs1] at h; exact absurd h (by simp)
        | ok bl1 =>
          rw [hs1] at h
          simp only at h
          obtain ⟨p1, p2, p3, p4, p5⟩ := setBit_ok _ bl1 _ _ n i2.width hs1
          cases hs2 : setBit bl1 (emplaceLink n (emplaceLink n t a).1 b).2
              (emplaceLink n t a).2 with
          | error e => rw [hs2] at h; exact absurd h (by simp)
          | ok bl2 =>
            rw [hs2] at h
            simp only at h
            injection h with h
            subst h
            obtain ⟨q1, q2, q3, q4, q5⟩ := setBit_ok _ bl2 _ _ n p4 hs2
            obtain ⟨ext, hext⟩ := addName_prefix (addName acc a) b
            have ga : (addEntry acc a b)[(emplaceLink n t a).2]? = some a := by
              show (addName (addName acc a) b)[_]? = _
              rw [hext, List.getElem?_append_left (List.getElem?_eq_some.1 g1).1]
              exact g1
            refine ⟨a, b, rfl, rfl, ?_, ?_, (emplaceLink n t a).2,
              (emplaceLink n (emplaceLink n t a).1 b).2, ga, g2, ?_⟩
            · exact ⟨i2.lookup_iff, i2.map_length, i2.idx_eq, by
                show bl2.length = _
                rw [q3, p3]; exact i2.rows, q4⟩
            · show (addName (addName acc a) b).length ≤ n
              rcases l2 with l2 | l2
              · rw [l2]
                rcases l1 with l1 | l1
                · rw [l1]; exact hacc
                · rw [l1]; omega
              · rw [l2]; omega
            · intro i j
              have e1 := q5 i j
              have e2 := p5 i j
              have e3 := r2 i j
              have e4 := r1 i j
              constructor
              · intro hb
                rcases e1.1 hb with hb | hb
                · rcases e2.1 hb with hb | hb
                  · exact Or.inl (e4.1 (e3.1 hb))
                  · exact Or.inr (Or.inl hb)
                · exact Or.inr (Or.inr hb)
              · intro hb
                rcases hb with hb | hb | hb
                · exact e1.2 (Or.inl (e2.2 (Or.inl (e3.2 (e4.2 hb)))))
                · exact e1.2 (Or.inl (e2.2 (Or.inr hb)))
                · exact e1.2 (Or.inr hb)
      · exact absurd h (by simp)

theorem ctorStep_succeeds (n : Nat) (acc : List String) (t : FilterTable) (line a b : String)
    (hinv : TableInv n acc t)
    (h0 : (fplus_split ',' true line)[0]? = some a)
    (h1 : (fplus_split ',' true line)[1]? = some b)
    (hlen : (addEntry acc a b).length ≤ n) :
    ∃ t1, ctorStep n t line = .ok t1 := by
  rw [ctorStep_eq n t line a b h0 h1]
  obtain ⟨i1, g1, _, _⟩ := emplaceLink_spec n acc t a hinv
  obtain ⟨i2, g2, _, _⟩ := emplaceLink_spec n (addName acc a) (emplaceLink n t a).1 b i1
  obtain ⟨ext, hext⟩ := addName_prefix (addName acc a) b
  have hrows : (emplaceLink n (emplaceLink n t a).1 b).1.blacklist.length =
      (addEntry acc a b).length := i2.rows
  have ha : (emplaceLink n t a).2 < (addEntry acc a b).length := by
    have := (List.getElem?_eq_some.1 g1).1
    show _ < (addName (addName acc a) b).length
    rw [hext, List.length_append]; omega
  have hb : (emplaceLink n (emplaceLink n t a).1 b).2 < (addEntry acc a b).length :=
    (List.getElem?_eq_some.1 g2).1
  rw [if_pos ⟨hrows ▸ ha, hrows ▸ hb⟩]
  obtain ⟨bl1, hs1⟩ := setBit_succeeds _ (emplaceLink n t a).2
    (emplaceLink n (emplaceLink n t a).1 b).2 n i2.width (hrows ▸ ha) (by omega)
  obtain ⟨_, _, p3, p4, _⟩ := setBit_ok _ bl1 _ _ n i2.width hs1
  obtain ⟨bl2, hs2⟩ := setBit_succeeds bl1 (emplaceLink n (emplaceLink n t a).1 b).2
    (emplaceLink n t a).2 n p4 (by rw [p3, hrows]; exact hb) (by omega)
  rw [hs1]
  simp only
  rw [hs2]
  exact ⟨_, rfl⟩

theorem take_two_of_getElem? {l : List String} {a b : String} (h0 : l[0]? = some a)
    (h1 : l[1]? = some b) : l.take 2 = [a, b] := by
  match l, h0, h1 with
  | x :: y :: rest, h0, h1 =>
    simp at h0 h1
    simp [h0, h1]

theorem entryNames_cons (line : String) (rest : List String) (a b : String)
    (h0 : (fplus_split ',' true line)[0]? = some a)
    (h1 : (fplus_split ',' true line)[1]? = some b) :
    entryNames (line :: rest) = a :: b :: entryNames rest := by
  simp [entryNames, take_two_of_getElem? h0 h1]

/-- What the loop of the constructor guarantees when it completes from a table that
satisfies the invariant. -/
theorem ctorLoop_ok (n : Nat) (lines : List String) :
    ∀ (acc : List String) (t t1 : FilterTable), TableInv n acc t → acc.length ≤ n →
      ctorLoop n t lines = .ok t1 →
      TableInv n ((entryNames lines).foldl addName acc) t1 ∧
      ((entryNames lines).foldl addName acc).length ≤ n ∧
      (∀ line ∈ lines, (fplus_split ',' true line)[1]? ≠ none) ∧
      (∀ i j, readBit t.blacklist i j = .ok true → readBit t1.blacklist i j = .ok true) ∧
      ((∀ i j, readBit t.blacklist i j = .ok true → readBit t.blacklist j i = .ok true) →
        ∀ i j, readBit t1.blacklist i j = .ok true → readBit t1.blacklist j i = .ok true) ∧
      (∀ line ∈ lines, ∀ a b, (fplus_split ',' true line)[0]? = some a →
        (fplus_split ',' true line)[1]? = some b →
        ∃ ia ib, t1.index_map.lookup a = some ia ∧ t1.index_map.lookup b = some ib ∧
          readBit t1.blacklist ia ib = .ok true ∧ readBit t1.blacklist ib ia = .ok true) := by
  induction lines with
  | nil =>
    intro acc t t1 hinv hacc h
    simp only [ctorLoop] at h
    injection h with h
    subst h
    exact ⟨hinv, hacc, by simp, fun _ _ h => h, fun h => h, by simp⟩
  | cons line rest ih =>
    intro acc t t1 hinv hacc h
    simp only [ctorLoop] at h
    cases hstep : ctorStep n t line with
    | error e => rw [hstep] at h; exact absurd h (by simp)
    | ok t2 =>
      rw [hstep] at h
      simp only at h
      obtain ⟨a, b, h0, h1, inv2, len2, ia, ib, ga, gb, bits⟩ :=
        ctorStep_ok n acc t t2 line hinv hacc hstep
      obtain ⟨c1, c2, c3, c4, c5, c6⟩ := ih (addEntry acc a b) t2 t1 inv2 len2 h
      have hnames : (entryNames (line :: rest)).foldl addName acc =
          (entryNames rest).foldl addName (addEntry acc a b) := by
        rw [entryNames_cons line rest a b h0 h1]; rfl
      rw [hnames]
      refine ⟨c1, c2, ?_, ?_, ?_, ?_⟩
      · intro l hl
        rcases List.mem_cons.1 hl with hl | hl
        · rw [hl, h1]; simp
        · exact c3 l hl
      · intro i j hb
        exact c4 i j ((bits i j).2 (Or.inl hb))
      · intro hsym
        apply c5
        intro i j hb
        rcases (bits i j).1 hb with hb | hb | hb
        · exact (bits j i).2 (Or.inl (hsym i j hb))
        · exact (bits j i).2 (Or.inr (Or.inr ⟨hb.2, hb.1⟩))
        · exact (bits j i).2 (Or.inr (Or.inl ⟨hb.2, hb.1⟩))
      · intro l hl a1 b1 e0 e1
        rcases List.mem_cons.1 hl with hl | hl
        · subst hl
          rw [h0] at e0
          rw [h1] at e1
          injection e0 with e0
          injection e1 with e1
          subst e0
          subst e1
          obtain ⟨ext, hext⟩ := foldl_addName_prefix (entryNames rest) (addEntry acc a b)
          have la : t1.index_map.lookup a = some ia := by
            rw [c1.lookup_iff, hext, List.getElem?_append_left (List.getElem?_eq_some.1 ga).1]
            exact ga
          have lb : t1.index_map.lookup b = some ib := by
            rw [c1.lookup_iff, hext, List.getElem?_append_left (List.getElem?_eq_some.1 gb).1]
            exact gb
          exact ⟨ia, ib, la, lb, c4 ia ib ((bits ia ib).2 (Or.inr (Or.inl ⟨rfl, rfl⟩))),
            c4 ib ia ((bits ib ia).2 (Or.inr (Or.inr ⟨rfl, rfl⟩)))⟩
        · exact c6 l hl a1 b1 e0 e1

theorem ctorLoop_succeeds (n : Nat) (lines : List String) :
    ∀ (acc : List String) (t : FilterTable), TableInv n acc t → acc.length ≤ n →
      (∀ line ∈ lines, (fplus_split ',' true line)[1]? ≠ none) →
      ((entryNames lines).foldl addName acc).length ≤ n →
      ∃ t1, ctorLoop n t lines = .ok t1 := by
  induction lines with
  | nil => intro acc t _ _ _ _; exact ⟨t, rfl⟩
  | cons line rest ih =>
    intro acc t hinv hacc hwf hlen
    have h1 := hwf line (List.mem_cons_self _ _)
    obtain ⟨b, h1⟩ := Option.ne_none_iff_exists'.1 h1
    have hl := (List.getElem?_eq_some.1 h1).1
    have hpos : 0 < (fplus_split ',' true line).length := by omega
    obtain ⟨a, h0⟩ : ∃ a, (fplus_split ',' true line)[0]? = some a :=
      ⟨_, List.getElem?_eq_getElem hpos⟩
    rw [entryNames_cons line rest a b h0 h1] at hlen
    obtain ⟨ext, hext⟩ := foldl_addName_prefix (entryNames rest) (addEntry acc a b)
    have hlen2 : (addEntry acc a b).length ≤ n := by
      have e : List.foldl addName acc (a :: b :: entryNames rest) =
          List.foldl addName (addEntry acc a b) (entryNames rest) := rfl
      rw [e, hext, List.length_append] at hlen
      omega
    obtain ⟨t2, hstep⟩ := ctorStep_succeeds n acc t line a b hinv h0 h1 hlen2
    obtain ⟨a1, b1, e0, e1, inv2, len2, _⟩ := ctorStep_ok n acc t t2 line hinv hacc hstep
    rw [h0] at e0
    rw [h1] at e1
    injection e0 with e0
    injection e1 with e1
    subst e0
    subst e1
    obtain ⟨t3, h3⟩ := ih _ t2 inv2 len2
      (fun l hl => hwf l (List.mem_cons_of_mem _ hl)) hlen
    exact ⟨t3, by simp only [ctorLoop, hstep]; exact h3⟩

theorem tableInv_init (n : Nat) : TableInv n [] { idx := 0, index_map := [], blacklist := [] } :=
  ⟨by intro x i; simp [List.lookup], rfl, rfl, rfl, by simp⟩

theorem ctor_some_ok (content : String) (n : Nat) (sg : Graph) (f : NeighborLinksFilter)
    (h : NeighborLinksFilter.ctor (some content) n sg = .ok f) :
    ∃ t, ctorLoop n { idx := 0, index_map := [], blacklist := [] } (readTokens content) = .ok t ∧
      f.index_map = t.index_map ∧ f.blacklist = t.blacklist ∧ f.sg = sg := by
  unfold NeighborLinksFilter.ctor at h
  simp only at h
  cases hl : ctorLoop n { idx := 0, index_map := [], blacklist := [] } (readTokens content) with
  | error e => rw [hl] at h; exact absurd h (by simp)
  | ok t =>
    rw [hl] at h
    injection h with h
    subst h
    exact ⟨t, rfl, rfl, rfl, rfl⟩

theorem ctor_some_of_loop (content : String) (n : Nat) (sg : Graph) (t : FilterTable)
    (h : ctorLoop n { idx := 0, index_map := [], blacklist := [] } (readTokens content) = .ok t) :
    NeighborLinksFilter.ctor (some content) n sg =
      .ok { index_map := t.index_map, blacklist := t.blacklist, sg := sg } := by
  unfold NeighborLinksFilter.ctor
  simp only [h]

theorem ctorLoop_append (n : Nat) (pre post : List String) : ∀ t : FilterTable,
    ctorLoop n t (pre ++ post) =
      match ctorLoop n t pre with
      | .error e => .error e
      | .ok t1 => ctorLoop n t1 post := by
  induction pre with
  | nil => intro t; rfl
  | cons line rest ih =>
    intro t
    simp only [List.cons_append, ctorLoop]
    cases ctorStep n t line with
    | error e => rfl
    | ok t1 => exact ih t1

theorem readBit_in_range (bl : List (List Bool)) (n i j : Nat)
    (hw : ∀ row ∈ bl, row.length = n) (hi : i < bl.length) (hj : j < n) :
    ∃ v, readBit bl i j = .ok v := by
  have hrow : bl[i]? = some bl[i] := List.getElem?_eq_getElem hi
  have hlen : bl[i].length = n := hw _ (List.getElem_mem hi)
  have hbit : (bl[i])[j]? = some (bl[i])[j] := List.getElem?_eq_getElem (hlen ▸ hj)
  exact ⟨_, (readBit_ok_iff bl i j _).2 ⟨_, hrow, hbit⟩⟩

theorem splitChars_length (p : Char → Bool) (l : List Char) :
    (splitChars p l).length = (l.filter p).length + 1 := by
  induction l with
  | nil => rfl
  | cons c cs ih =>
    by_cases hc : p c = true
    · simp [splitChars, hc, ih]
    · simp only [splitChars, hc, Bool.false_eq_true, if_false, List.filter_cons]
      cases hs : splitChars p cs with
      | nil => rw [hs] at ih; simp at ih
      | cons part parts => rw [hs] at ih; simpa using ih

theorem fplus_split_second (line : String) :
    (fplus_split ',' true line)[1]? ≠ none ↔ ',' ∈ line.data := by
  have hlen : (fplus_split ',' true line).length =
      (line.data.filter (fun c => c == ',')).length + 1 := by
    simp [fplus_split, splitChars_length]
  rw [ne_eq, List.getElem?_eq_none_iff, hlen]
  constructor
  · intro h
    have hpos : 0 < (line.data.filter (fun c => c == ',')).length := by omega
    obtain ⟨c, hc⟩ := List.exists_mem_of_length_pos hpos
    obtain ⟨h1, h2⟩ := List.mem_filter.1 hc
    have : c = ',' := by simpa using h2
    exact this ▸ h1
  · intro h
    have : ',' ∈ line.data.filter (fun c => c == ',') := List.mem_filter.2 ⟨h, by simp⟩
    have := List.length_pos_of_mem this
    omega

/-- C5: when the constructor accepts a blacklist file, the bits of any two names that
have a filter index can be read in both orders and agree, and for every entry `A,B` of
the file both names have an index and both `blacklist[index(A)][index(B)]` and
`blacklist[index(B)][index(A)]` are set. -/
theorem ctor_blacklist_symmetric (content : String) (num_items : Nat) (sg : Graph)
    (f : NeighborLinksFilter)
    (h : NeighborLinksFilter.ctor (some content) num_items sg = .ok f) :
    (∀ a b i j, f.index_map.lookup a = some i → f.index_map.lookup b = some j →
      ∃ v, readBit f.blacklist i j = .ok v ∧ readBit f.blacklist j i = .ok v) ∧
    (∀ line ∈ readTokens content, ∀ a b, (fplus_split ',' true line)[0]? = some a →
      (fplus_split ',' true line)[1]? = some b →
      ∃ i j, f.index_map.lookup a = some i ∧ f.index_map.lookup b = some j ∧
        readBit f.blacklist i j = .ok true ∧ readBit f.blacklist j i = .ok true) := by
  obtain ⟨t, hl, e1, e2, _⟩ := ctor_some_ok content num_items sg f h
  obtain ⟨inv, hlen, _, _, hsym, hpairs⟩ :=
    ctorLoop_ok num_items (readTokens content) [] _ t (tableInv_init num_items)
      (Nat.zero_le _) hl
  have hsym1 := hsym (by
    intro i j hb
    have := (readBit_ok_iff [] i j true).1 hb
    simp at this)
  rw [e1, e2]
  refine ⟨?_, hpairs⟩
  intro a b i j ha hb
  have hi := inv.index_lt ha
  have hj := inv.index_lt hb
  obtain ⟨v, hv⟩ := readBit_in_range t.blacklist num_items i j inv.width
    (by rw [inv.rows]; exact hi) (by omega)
  obtain ⟨w, hw⟩ := readBit_in_range t.blacklist num_items j i inv.width
    (by rw [inv.rows]; exact hj) (by omega)
  refine ⟨v, hv, ?_⟩
  rw [hw]
  cases v with
  | true => rw [hsym1 i j hv] at hw; exact hw.symm ▸ rfl
  | false =>
    cases w with
    | true => rw [hsym1 j i hw] at hv; exact absurd hv (by simp)
    | false => rfl

/-- The statement C5 at the file with the entries `a,b` and `b,c`. -/
theorem ctor_blacklist_symmetric_witness :
    NeighborLinksFilter.ctor (some "a,b\nb,c \n") 3 sampleGraph = .ok chainFilter ∧
    (∀ a b i j, chainFilter.index_map.lookup a = some i →
      chainFilter.index_map.lookup b = some j →
      ∃ v, readBit chainFilter.blacklist i j = .ok v ∧
        readBit chainFilter.blacklist j i = .ok v) ∧
    (∀ line ∈ readTokens "a,b\nb,c \n", ∀ a b, (fplus_split ',' true line)[0]? = some a →
      (fplus_split ',' true line)[1]? = some b →
      ∃ i j, chainFilter.index_map.lookup a = some i ∧
        chainFilter.index_map.lookup b = some j ∧
        readBit chainFilter.blacklist i j = .ok true ∧
        readBit chainFilter.blacklist j i = .ok true) :=
  ⟨rfl, ctor_blacklist_symmetric "a,b\nb,c \n" 3 sampleGraph chainFilter rfl⟩

/-! ## Filter indices follow the reading order -/

/-- C6: on a blacklist file whose entries all have a comma and name `n <= num_items`
distinct links the constructor completes; and whenever it completes, a name has filter
index `i` exactly when it is the `i`-th distinct name in reading order (first name of an
entry before its second), so the indices are `0, ..., n-1` without gap or repeat; the
index map has `n` entries and there are `n` exclusion bitsets; and an index given after a
part of the file has been read is the index the name has at the end. -/
theorem ctor_indices_first_seen (content : String) (num_items : Nat) (sg : Graph) :
    ((∀ line ∈ readTokens content, ',' ∈ line.data) →
      (entryNames (readTokens content)).toFinset.card ≤ num_items →
      ∃ f, NeighborLinksFilter.ctor (some content) num_items sg = .ok f) ∧
    (∀ f, NeighborLinksFilter.ctor (some content) num_items sg = .ok f →
      (∀ x i, f.index_map.lookup x = some i ↔
        (firstSeen (entryNames (readTokens content)))[i]? = some x) ∧
      f.index_map.length = (entryNames (readTokens content)).toFinset.card ∧
      f.blacklist.length = (entryNames (readTokens content)).toFinset.card ∧
      (firstSeen (entryNames (readTokens content))).length =
        (entryNames (readTokens content)).toFinset.card ∧
      (∀ pre post, readTokens content = pre ++ post →
        ∃ t1, ctorLoop num_items { idx := 0, index_map := [], blacklist := [] } pre = .ok t1 ∧
          ∀ x i, t1.index_map.lookup x = some i → f.index_map.lookup x = some i)) := by
  constructor
  · intro hwf hlen
    obtain ⟨t, hl⟩ := ctorLoop_succeeds num_items (readTokens content) []
      { idx := 0, index_map := [], blacklist := [] } (tableInv_init num_items) (Nat.zero_le _)
      (fun line hline => (fplus_split_second line).2 (hwf line hline))
      (by rw [foldl_addName_nil, firstSeen_length]; exact hlen)
    exact ⟨_, ctor_some_of_loop content num_items sg t hl⟩
  · intro f h
    obtain ⟨t, hl, e1, e2, _⟩ := ctor_some_ok content num_items sg f h
    obtain ⟨inv, _, _, _, _, _⟩ :=
      ctorLoop_ok num_items (readTokens content) [] _ t (tableInv_init num_items)
        (Nat.zero_le _) hl
    rw [foldl_addName_nil] at inv
    rw [e1, e2]
    refine ⟨inv.lookup_iff, ?_, ?_, firstSeen_length _, ?_⟩
    · rw [inv.map_length, firstSeen_length]
    · rw [inv.rows, firstSeen_length]
    · intro pre post hsplit
      rw [hsplit, ctorLoop_append] at hl
      cases hpre : ctorLoop num_items { idx := 0, index_map := [], blacklist := [] } pre with
      | error e => rw [hpre] at hl; exact absurd hl (by simp)
      | ok t1 =>
        rw [hpre] at hl
        simp only at hl
        obtain ⟨inv1, len1, _⟩ :=
          ctorLoop_ok num_items pre [] _ t1 (tableInv_init num_items) (Nat.zero_le _) hpre
        obtain ⟨inv2, _⟩ := ctorLoop_ok num_items post _ t1 t inv1 len1 hl
        obtain ⟨ext, hext⟩ := foldl_addName_prefix (entryNames post)
          ((entryNames pre).foldl addName [])
        refine ⟨t1, rfl, ?_⟩
        intro x i hx
        have hget := (inv1.lookup_iff x i).1 hx
        rw [inv2.lookup_iff, hext, List.getElem?_append_left (List.getElem?_eq_some.1 hget).1]
        exact hget

/-- The statement C6 at the file with the entries `a,b` and `b,c`. -/
theorem ctor_indices_first_seen_witness :
    (∀ line ∈ readTokens "a,b\nb,c \n", ',' ∈ line.data) ∧
    (entryNames (readTokens "a,b\nb,c \n")).toFinset.card ≤ 3 ∧
    NeighborLinksFilter.ctor (some "a,b\nb,c \n") 3 sampleGraph = .ok chainFilter ∧
    firstSeen (entryNames (readTokens "a,b\nb,c \n")) = ["a", "b", "c"] ∧
    (∀ x i, chainFilter.index_map.lookup x = some i ↔
      (firstSeen (entryNames (readTokens "a,b\nb,c \n")))[i]? = some x) ∧
    chainFilter.index_map.length = (entryNames (readTokens "a,b\nb,c \n")).toFinset.card ∧
    chainFilter.blacklist.length = (entryNames (readTokens "a,b\nb,c \n")).toFinset.card :=
  ⟨by decide, by decide, rfl, by decide,
    ((ctor_indices_first_seen "a,b\nb,c \n" 3 sampleGraph).2 chainFilter rfl).1,
    ((ctor_indices_first_seen "a,b\nb,c \n" 3 sampleGraph).2 chainFilter rfl).2.1,
    ((ctor_indices_first_seen "a,b\nb,c \n" 3 sampleGraph).2 chainFilter rfl).2.2.1⟩

/-! ## Malformed entries -/

/-- The file with the single entry `a,b`, read with a link count of 5, gives two indexed
names and bitsets of width 5. -/
theorem bitset_width_is_link_count :
    ∃ f, NeighborLinksFilter.ctor (some "a,b\n") 5 sampleGraph = .ok f ∧
      f.index_map.length = 2 ∧
      f.blacklist = [[false, true, false, false, false], [true, false, false, false, false]] ∧
      ∀ row ∈ f.blacklist, row.length = 5 ∧ row.length ≠ f.index_map.length :=
  ⟨_, rfl, rfl, rfl, by decide⟩

/-- C10 (amended): after the constructor has completed, every exclusion bitset has width
`num_items`, the supplied link count; there is one bitset per indexed name, and the
number of indexed names is at most `num_items`. -/
theorem ctor_bitset_width (blacklist_file : Option String) (num_items : Nat) (sg : Graph)
    (f : NeighborLinksFilter)
    (h : NeighborLinksFilter.ctor blacklist_file num_items sg = .ok f) :
    (∀ row ∈ f.blacklist, row.length = num_items) ∧
    f.blacklist.length = f.index_map.length ∧
    f.index_map.length ≤ num_items := by
  cases blacklist_file with
  | none =>
    unfold NeighborLinksFilter.ctor at h
    injection h with h
    subst h
    simp
  | some content =>
    obtain ⟨t, hl, e1, e2, _⟩ := ctor_some_ok content num_items sg f h
    obtain ⟨inv, hlen, _⟩ :=
      ctorLoop_ok num_items (readTokens content) [] _ t (tableInv_init num_items)
        (Nat.zero_le _) hl
    rw [e1, e2]
    exact ⟨inv.width, by rw [inv.rows, inv.map_length], by rw [inv.map_length]; exact hlen⟩

/-- The statement C10 (amended) at the file with the entries `a,b` and `b,c`. -/
theorem ctor_bitset_width_witness :
    NeighborLinksFilter.ctor (some "a,b\nb,c \n") 3 sampleGraph = .ok chainFilter ∧
    (∀ row ∈ chainFilter.blacklist, row.length = 3) ∧
    chainFilter.blacklist.length = chainFilter.index_map.length ∧
    chainFilter.index_map.length ≤ 3 :=
  ⟨rfl, ctor_bitset_width (some "a,b\nb,c \n") 3 sampleGraph chainFilter rfl⟩

/-! ## What a query leaves behind -/

theorem map_emplace_mono {β : Type} (m : List (String × β)) (key k : String) (value v : β)
    (h : m.lookup k = some v) : (map_emplace m key value).lookup k = some v := by
  unfold map_emplace
  cases hk : m.lookup key with
  | some w => exact h
  | none => simp [List.lookup_append, h]

theorem node_map_index_mono (m : List (String × Option Node)) (name k : String)
    (v : Option Node) (h : m.lookup k = some v) :
    (node_map_index m name).1.lookup k = some v := by
  unfold node_map_index
  cases hk : m.lookup name with
  | some w => exact h
  | none => simp [List.lookup_append, h]

theorem map_update_bodyIdentity (E : Engine) (coll_tf : Transform3r)
    (m : List (String × btCollisionObject)) (key : String) :
    (map_update m key (syncedBody E coll_tf)).map bodyIdentity = m.map bodyIdentity := by
  induction m with
  | nil => rfl
  | cons kv rest ih =>
    have hcons : map_update (kv :: rest) key (syncedBody E coll_tf) =
        (if (kv.1 == key) = true then (kv.1, syncedBody E coll_tf kv.2) else kv) ::
          map_update rest key (syncedBody E coll_tf) := rfl
    rw [hcons, List.map_cons, List.map_cons, ih]
    congr 1
    split <;> rfl

theorem pose_helper_keeps (E : Engine) (s s1 : CheckerState) (node : Node)
    (coll_tf : Transform3r) (h : pose_helper E s node coll_tf = .ok s1) :
    s1.robot_collisions.map bodyIdentity = s.robot_collisions.map bodyIdentity ∧
    ∀ k v, s.node_map.lookup k = some v → s1.node_map.lookup k = some v := by
  rw [pose_helper_eq] at h
  split at h
  · split at h
    · injection h with h; subst h
      exact ⟨rfl, fun k v hk => map_emplace_mono _ _ _ _ _ hk⟩
    · split at h
      · injection h with h; subst h
        exact ⟨map_update_bodyIdentity E coll_tf _ _,
          fun k v hk => map_emplace_mono _ _ _ _ _ hk⟩
      · exact absurd h (by simp)
  · injection h with h; subst h
    exact ⟨rfl, fun _ _ hk => hk⟩

theorem update_transforms_keeps (E : Engine) (poses : List (Node × Transform3r)) :
    ∀ s s1 : CheckerState, update_transforms E s poses = .ok s1 →
      s1.robot_collisions.map bodyIdentity = s.robot_collisions.map bodyIdentity ∧
      ∀ k v, s.node_map.lookup k = some v → s1.node_map.lookup k = some v := by
  induction poses with
  | nil =>
    intro s s1 h
    simp only [update_transforms] at h
    injection h with h; subst h
    exact ⟨rfl, fun _ _ hk => hk⟩
  | cons p rest ih =>
    intro s s1 h
    obtain ⟨node, coll_tf⟩ := p
    simp only [update_transforms] at h
    cases hstep : pose_helper E s node coll_tf with
    | error e => rw [hstep] at h; exact absurd h (by simp)
    | ok s2 =>
      rw [hstep] at h
      obtain ⟨a1, a2⟩ := pose_helper_keeps E s s2 node coll_tf hstep
      obtain ⟨b1, b2⟩ := ih s2 s1 h
      exact ⟨b1.trans a1, fun k v hk => b2 k v (a2 k v hk)⟩

theorem classify_keeps (s : CheckerState) (m : Manifold) :
    (classify s m).robot_collisions = s.robot_collisions ∧
    (classify s m).object_collisions = s.object_collisions ∧
    (classify s m).obstacle_collisions = s.obstacle_collisions ∧
    (classify s m).broadphase_filter = s.broadphase_filter ∧
    ∀ k v, s.node_map.lookup k = some v → (classify s m).node_map.lookup k = some v := by
  rw [classify_eq]
  have hmono : ∀ k v, s.node_map.lookup k = some v →
      (node_map_index (node_map_index s.node_map m.body0).1 m.body1).1.lookup k = some v :=
    fun k v hk => node_map_index_mono _ _ _ _ (node_map_index_mono _ _ _ _ hk)
  split
  · exact ⟨rfl, rfl, rfl, rfl, hmono⟩
  · exact ⟨rfl, rfl, rfl, rfl, hmono⟩

theorem manifoldLoop_cases (E : Engine) (s : CheckerState) (ms : List Manifold) :
    manifoldLoop E s ms = (true, s, ms.map clearManifold) ∨
    ∃ m ∈ ms, (manifoldLoop E s ms).1 = false ∧ (manifoldLoop E s ms).2.1 = classify s m := by
  induction ms with
  | nil => exact Or.inl rfl
  | cons m rest ih =>
    by_cases hm : contactLoop E m.contacts = true
    · exact Or.inr ⟨m, List.mem_cons_self _ _, by simp [manifoldLoop, hm],
        by simp [manifoldLoop, hm]⟩
    · simp only [Bool.not_eq_true] at hm
      rcases ih with h | ⟨m1, hm1, h1, h2⟩
      · exact Or.inl (by simp [manifoldLoop, hm, h])
      · exact Or.inr ⟨m1, List.mem_cons_of_mem _ hm1, by simp [manifoldLoop, hm, h1],
          by simp [manifoldLoop, hm, h2]⟩

theorem pose_helper_setSceneGraph (E : Engine) (s : CheckerState) (g : Graph) (node : Node)
    (coll_tf : Transform3r) :
    pose_helper E (setSceneGraph s g) node coll_tf =
      match pose_helper E s node coll_tf with
      | .error e => .error e
      | .ok s1 => .ok (setSceneGraph s1 g) := by
  rw [pose_helper_eq, pose_helper_eq]
  split
  · split
    · rfl
    · split
      · rename_i h3
        have h4 : (List.lookup node.name s.robot_collisions).isSome = true := h3
        rw [if_pos h4]
        rfl
      · rename_i h3
        have h4 : ¬ (List.lookup node.name s.robot_collisions).isSome = true := h3
        rw [if_neg h4]
  · rfl

theorem update_transforms_setSceneGraph (E : Engine) (g : Graph)
    (poses : List (Node × Transform3r)) : ∀ s : CheckerState,
    update_transforms E (setSceneGraph s g) poses =
      match update_transforms E s poses with
      | .error e => .error e
      | .ok s1 => .ok (setSceneGraph s1 g) := by
  induction poses with
  | nil => intro s; rfl
  | cons p rest ih =>
    intro s
    obtain ⟨node, coll_tf⟩ := p
    simp only [update_transforms]
    rw [pose_helper_setSceneGraph]
    cases pose_helper E s node coll_tf with
    | error e => rfl
    | ok s1 => exact ih s1

/-- Against C11 as stated.  From the fresh sample checker, a query on a scene graph that
holds the link `arm` only, in which `arm` and `hand` are found in penetration, leaves a
node map with two entries (`hand` under a null pointer), a manifold list and a `counter`
that differ from those before the call.  The full sample query is then classified as a
world collision, whereas the same query on the fresh checker is classified as a self
collision. -/
theorem query_history_changes_classification :
    sampleState.node_map = [] ∧ sampleState.manifolds = [] ∧ sampleState.counter = 0 ∧
    ∃ sA sB sAB,
      isValid (sampleEngine [selfManifold]) armOnlyQuery sampleState = .ok (false, sA) ∧
      sA.node_map = [("arm", some armNode), ("hand", none)] ∧
      sA.manifolds = [clearManifold selfManifold] ∧ sA.counter = 1 ∧
      isValid (sampleEngine [selfManifold]) (sampleQuery true) sampleState = .ok (false, sB) ∧
      sB.self_coll_count = sampleState.self_coll_count + 1 ∧
      sB.world_coll_count = sampleState.world_coll_count ∧
      isValid (sampleEngine [selfManifold]) (sampleQuery true) sA = .ok (false, sAB) ∧
      sAB.self_coll_count = sA.self_coll_count ∧
      sAB.world_coll_count = sA.world_coll_count + 1 :=
  ⟨rfl, rfl, rfl, _, _, _, rfl, rfl, rfl, rfl, rfl, rfl, rfl, rfl, rfl, rfl⟩

/-- C11 (amended): whenever `isValid` returns, the object and obstacle bodies, the index
map and the exclusion bitsets of the filter, and the key, filter index and name of every
robot body are as before the call; the robot body transforms, the counters, the node map,
the scene graph of the filter and the manifolds may differ.  The node map carries its
entries over: every entry present before the call is present and unchanged after it.  A
query within bounds leaves its own scene graph in the filter, and the scene graph the
filter held before has no influence on the outcome.  A query that returns true leaves
every manifold cleared and the four counters as they were. -/
theorem isValid_frame (E : Engine) (q : Query) (s s1 : CheckerState) (result : Bool)
    (h : isValid E q s = .ok (result, s1)) :
    s1.object_collisions = s.object_collisions ∧
    s1.obstacle_collisions = s.obstacle_collisions ∧
    s1.broadphase_filter.index_map = s.broadphase_filter.index_map ∧
    s1.broadphase_filter.blacklist = s.broadphase_filter.blacklist ∧
    s1.robot_collisions.map bodyIdentity = s.robot_collisions.map bodyIdentity ∧
    (∀ name node, s.node_map.lookup name = some node → s1.node_map.lookup name = some node) ∧
    (q.satisfiesBounds = true →
      s1.broadphase_filter.sg = q.sg ∧
      ∀ g : Graph, isValid E q (setSceneGraph s g) = isValid E q s) ∧
    (result = true →
      (∀ m ∈ s1.manifolds, m.contacts = []) ∧
      s1.oob_count = s.oob_count ∧ s1.self_coll_count = s.self_coll_count ∧
      s1.world_coll_count = s.world_coll_count ∧ s1.counter = s.counter) := by
  by_cases hb : q.satisfiesBounds = true
  · cases hp : update_transforms E s q.poses with
    | error e =>
      simp [isValid, hb, hp] at h
    | ok s2 =>
      rw [isValid_in_bounds E q s s2 hb hp] at h
      injection h with h
      injection h with hres hst
      obtain ⟨f1, f2, f3, f4, f5, f6, f7, f8⟩ := update_transforms_frame E q.poses s s2 hp
      obtain ⟨k1, k2⟩ := update_transforms_keeps E q.poses s s2 hp
      have hsg : ∀ g : Graph, isValid E q (setSceneGraph s g) = isValid E q s := by
        intro g
        have e := update_transforms_setSceneGraph E g q.poses s
        rw [hp] at e
        rw [isValid_in_bounds E q (setSceneGraph s g) (setSceneGraph s2 g) hb e,
          isValid_in_bounds E q s s2 hb hp]
        rfl
      rcases manifoldLoop_cases E
          { setSceneGraph s2 q.sg with manifolds := E.detect (setSceneGraph s2 q.sg) }
          (E.detect (setSceneGraph s2 q.sg)) with hc | ⟨m, _, hc1, hc2⟩
      · rw [hc] at hres hst
        subst hst
        refine ⟨f7, f8, by rw [← f6]; rfl, by rw [← f6]; rfl, k1, k2, fun _ => ⟨rfl, hsg⟩,
          fun _ => ⟨?_, f1, f2, f3, f4⟩⟩
        intro m hm
        obtain ⟨m0, _, hm0⟩ := List.mem_map.1 hm
        rw [← hm0]
        rfl
      · rw [hc1] at hres
        rw [hc2] at hst
        subst hst
        obtain ⟨c1, c2, c3, c4, c5⟩ := classify_keeps
          { setSceneGraph s2 q.sg with manifolds := E.detect (setSceneGraph s2 q.sg) } m
        refine ⟨c2.trans f7, c3.trans f8, ?_, ?_, ?_, ?_, fun _ => ⟨?_, hsg⟩, ?_⟩
        · show (classify _ m).broadphase_filter.index_map = _
          rw [c4, ← f6]; rfl
        · show (classify _ m).broadphase_filter.blacklist = _
          rw [c4, ← f6]; rfl
        · show (classify _ m).robot_collisions.map bodyIdentity = _
          rw [c1]; exact k1
        · intro name node hn
          exact c5 name node (k2 name node hn)
        · show (classify _ m).broadphase_filter.sg = _
          rw [c4]; rfl
        · intro hr
          rw [← hres] at hr
          exact absurd hr (by simp)
  · have hb1 : q.satisfiesBounds = false := by simpa using hb
    simp only [isValid, hb1, Bool.not_false, if_true] at h
    injection h with h
    injection h with hres hst
    subst hst
    refine ⟨rfl, rfl, rfl, rfl, rfl, fun _ _ hn => hn, fun hq => absurd hq hb, fun hr => ?_⟩
    rw [← hres] at hr
    exact absurd hr (by simp)

/-- The statement C11 (amended) at the sample scene: the query on the scene graph that
holds `arm` only, run on the fresh sample checker. -/
theorem isValid_frame_witness :
    ∃ sA, isValid (sampleEngine [selfManifold]) armOnlyQuery sampleState = .ok (false, sA) ∧
      sA.object_collisions = sampleState.object_collisions ∧
      sA.obstacle_collisions = sampleState.obstacle_collisions ∧
      sA.broadphase_filter.index_map = sampleState.broadphase_filter.index_map ∧
      sA.broadphase_filter.blacklist = sampleState.broadphase_filter.blacklist ∧
      sA.robot_collisions.map bodyIdentity = sampleState.robot_collisions.map bodyIdentity ∧
      (∀ name node, sampleState.node_map.lookup name = some node →
        sA.node_map.lookup name = some node) ∧
      (armOnlyQuery.satisfiesBounds = true →
        sA.broadphase_filter.sg = armOnlyQuery.sg ∧
        ∀ g : Graph, isValid (sampleEngine [selfManifold]) armOnlyQuery
            (setSceneGraph sampleState g) =
          isValid (sampleEngine [selfManifold]) armOnlyQuery sampleState) ∧
      (false = true →
        (∀ m ∈ sA.manifolds, m.contacts = []) ∧
        sA.oob_count = sampleState.oob_count ∧
        sA.self_coll_count = sampleState.self_coll_count ∧
        sA.world_coll_count = sampleState.world_coll_count ∧
        sA.counter = sampleState.counter) :=
  ⟨_, rfl, isValid_frame (sampleEngine [selfManifold]) armOnlyQuery sampleState _ false rfl⟩

/-! ## Bitset accesses stay in range -/

theorem ctorLoop_fault_is_links (n : Nat) (lines : List String) :
    ∀ (acc : List String) (t : FilterTable), TableInv n acc t → acc.length ≤ n →
      ((entryNames lines).foldl addName acc).length ≤ n →
      ∀ e, ctorLoop n t lines = .error e → e = .linksOutOfRange := by
  induction lines with
  | nil =>
    intro acc t _ _ _ e h
    simp [ctorLoop] at h
  | cons line rest ih =>
    intro acc t hinv hacc hlen e h
    cases h1 : (fplus_split ',' true line)[1]? with
    | none =>
      simp only [ctorLoop, ctorStep_links_fault n t line h1] at h
      injection h with h
      exact h.symm
    | some b =>
      have hl := (List.getElem?_eq_some.1 h1).1
      have hpos : 0 < (fplus_split ',' true line).length := by omega
      obtain ⟨a, h0⟩ : ∃ a, (fplus_split ',' true line)[0]? = some a :=
        ⟨_, List.getElem?_eq_getElem hpos⟩
      rw [entryNames_cons line rest a b h0 h1] at hlen
      obtain ⟨ext, hext⟩ := foldl_addName_prefix (entryNames rest) (addEntry acc a b)
      have hlen2 : (addEntry acc a b).length ≤ n := by
        have e1 : List.foldl addName acc (a :: b :: entryNames rest) =
            List.foldl addName (addEntry acc a b) (entryNames rest) := rfl
        rw [e1, hext, List.length_append] at hlen
        omega
      obtain ⟨t2, hstep⟩ := ctorStep_succeeds n acc t line a b hinv h0 h1 hlen2
      obtain ⟨a1, b1, e0, e1, inv2, len2, _⟩ := ctorStep_ok n acc t t2 line hinv hacc hstep
      rw [h0] at e0
      rw [h1] at e1
      injection e0 with e0
      injection e1 with e1
      subst e0
      subst e1
      simp only [ctorLoop, hstep] at h
      exact ih _ t2 inv2 len2 hlen e h

theorem needBroadphaseCollision_returns (self : NeighborLinksFilter)
    (proxy0 proxy1 : btBroadphaseProxy)
    (h : proxy0.m_clientObject.userIndex < 0 ∨ proxy1.m_clientObject.userIndex < 0 ∨
      ∃ b, readBit self.blacklist proxy0.m_clientObject.userIndex.toNat
        proxy1.m_clientObject.userIndex.toNat = .ok b) :
    ∃ r, self.needBroadphaseCollision proxy0 proxy1 = .ok r := by
  unfold NeighborLinksFilter.needBroadphaseCollision
  simp only []
  have : ∃ c, bitsetTest self.blacklist
      (Int.land proxy0.m_collisionFilterGroup proxy1.m_collisionFilterMask != 0 &&
        Int.land proxy1.m_collisionFilterGroup proxy0.m_collisionFilterMask != 0)
      proxy0.m_clientObject.userIndex proxy1.m_clientObject.userIndex = .ok c := by
    unfold bitsetTest
    split
    · rcases h with h | h | ⟨b, h⟩
      · simp [h]
      · by_cases h1 : proxy0.m_clientObject.userIndex < 0 <;> simp [h1, h]
      · by_cases h1 : proxy0.m_clientObject.userIndex < 0
        · simp [h1]
        · by_cases h2 : proxy1.m_clientObject.userIndex < 0 <;> simp [h1, h2, h]
    · exact ⟨false, rfl⟩
  obtain ⟨c, hc⟩ := this
  rw [hc]
  exact ⟨_, rfl⟩

theorem ctor_tableInv (blacklist_file : Option String) (n : Nat) (sg : Graph)
    (f : NeighborLinksFilter) (h : NeighborLinksFilter.ctor blacklist_file n sg = .ok f) :
    ∃ acc, TableInv n acc ⟨acc.length, f.index_map, f.blacklist⟩ ∧ acc.length ≤ n := by
  cases blacklist_file with
  | none =>
    unfold NeighborLinksFilter.ctor at h
    injection h with h
    subst h
    exact ⟨[], tableInv_init n, Nat.zero_le _⟩
  | some content =>
    obtain ⟨t, hl, e1, e2, _⟩ := ctor_some_ok content n sg f h
    obtain ⟨inv, hlen, _⟩ :=
      ctorLoop_ok n (readTokens content) [] _ t (tableInv_init n) (Nat.zero_le _) hl
    refine ⟨_, ⟨?_, ?_, rfl, ?_, ?_⟩, hlen⟩
    · rw [e1]; exact inv.lookup_iff
    · rw [e1]; exact inv.map_length
    · rw [e2]; exact inv.rows
    · rw [e2]; exact inv.width

theorem assignedIndex_in_range (blacklist_file : Option String) (n : Nat) (sg : Graph)
    (f : NeighborLinksFilter) (h : NeighborLinksFilter.ctor blacklist_file n sg = .ok f)
    (obj : btCollisionObject) (ha : assignedIndex f obj) (hpos : 0 ≤ obj.userIndex) :
    obj.userIndex.toNat < f.blacklist.length ∧ obj.userIndex.toNat < n := by
  obtain ⟨acc, inv, hlen⟩ := ctor_tableInv blacklist_file n sg f h
  rcases ha with ha | ⟨name, idx, hl, hi⟩
  · rw [ha] at hpos; exact absurd hpos (by decide)
  · have hlt : idx < acc.length := inv.index_lt hl
    have hrows : f.blacklist.length = acc.length := inv.rows
    rw [hi, Int.toNat_ofNat, hrows]
    exact ⟨hlt, by omega⟩

theorem mem_map_emplace {β : Type} (m : List (String × β)) (key : String) (value : β)
    (kv : String × β) (h : kv ∈ map_emplace m key value) : kv ∈ m ∨ kv = (key, value) := by
  unfold map_emplace at h
  split at h
  · exact Or.inl h
  · simpa using h

theorem mem_map_update {β : Type} (m : List (String × β)) (key : String) (g : β → β)
    (kv : String × β) (h : kv ∈ map_update m key g) :
    kv ∈ m ∨ ∃ kv0 ∈ m, kv = (kv0.1, g kv0.2) := by
  unfold map_update at h
  obtain ⟨kv0, h0, h1⟩ := List.mem_map.1 h
  split at h1
  · exact Or.inr ⟨kv0, h0, h1.symm⟩
  · exact Or.inl (h1 ▸ h0)

theorem objectBodies_userIndex (objects : List (String × SceneObject)) :
    ∀ oc : List (String × btCollisionObject), (∀ kv ∈ oc, kv.2.userIndex = -1) →
      ∀ kv ∈ objectBodies objects oc, kv.2.userIndex = -1 := by
  induction objects with
  | nil => intro oc h kv hkv; exact h kv hkv
  | cons o rest ih =>
    intro oc h
    obtain ⟨key, object⟩ := o
    simp only [objectBodies]
    apply ih
    intro kv hkv
    rcases mem_map_update _ _ _ kv hkv with h1 | ⟨kv0, _, h1⟩
    · rcases mem_map_emplace _ _ _ kv h1 with h2 | h2
      · exact h kv h2
      · rw [h2]; rfl
    · rw [h1]

theorem setupRobotBody_assigned (E : Engine) (f : NeighborLinksFilter)
    (tree_nodes : List (String × Link)) (name : String) (body0 body : btCollisionObject)
    (h : setupRobotBody E f tree_nodes name body0 = .ok body) : assignedIndex f body := by
  unfold setupRobotBody at h
  split at h
  · exact absurd h (by simp)
  · rename_i link _
    simp only at h
    injection h with h
    subst h
    cases hl : f.index_map.lookup link.name with
    | none => exact Or.inl rfl
    | some idx => exact Or.inr ⟨link.name, idx, hl, rfl⟩

theorem setupRobotBodies_assigned (E : Engine) (f : NeighborLinksFilter)
    (tree_nodes : List (String × Link)) (rc : List (String × btCollisionObject)) :
    ∀ bodies, setupRobotBodies E f tree_nodes rc = .ok bodies →
      ∀ kv ∈ bodies, assignedIndex f kv.2 := by
  induction rc with
  | nil =>
    intro bodies h kv hkv
    simp only [setupRobotBodies] at h
    injection h with h
    subst h
    simp at hkv
  | cons p rest ih =>
    intro bodies h kv hkv
    obtain ⟨name, body0⟩ := p
    simp only [setupRobotBodies] at h
    cases h1 : setupRobotBody E f tree_nodes name body0 with
    | error e => rw [h1] at h; exact absurd h (by simp)
    | ok body =>
      rw [h1] at h
      simp only at h
      cases h2 : setupRobotBodies E f tree_nodes rest with
      | error e => rw [h2] at h; exact absurd h (by simp)
      | ok bs =>
        rw [h2] at h
        simp only at h
        injection h with h
        subst h
        rcases List.mem_cons.1 hkv with hk | hk
        · rw [hk]; exact setupRobotBody_assigned E f tree_nodes name body0 body h1
        · exact ih bs h2 kv hk

theorem setupRobotBodies_fault (E : Engine) (f : NeighborLinksFilter)
    (tree_nodes : List (String × Link)) (rc : List (String × btCollisionObject)) :
    ∀ e, setupRobotBodies E f tree_nodes rc = .error e → e = .noTreeNode := by
  induction rc with
  | nil => intro e h; simp [setupRobotBodies] at h
  | cons p rest ih =>
    intro e h
    obtain ⟨name, body0⟩ := p
    simp only [setupRobotBodies] at h
    cases h1 : setupRobotBody E f tree_nodes name body0 with
    | error e1 =>
      rw [h1] at h
      injection h with h
      subst h
      unfold setupRobotBody at h1
      split at h1
      · injection h1 with h1; exact h1.symm
      · simp at h1
    | ok body =>
      rw [h1] at h
      simp only at h
      cases h2 : setupRobotBodies E f tree_nodes rest with
      | error e2 =>
        rw [h2] at h
        injection h with h
        subst h
        exact ih _ h2
      | ok bs => rw [h2] at h; simp at h

theorem checker_ctor_ok (E : Engine) (globals : FileGlobals)
    (objects obstacles : List (String × SceneObject)) (tree_nodes : List (String × Link))
    (blacklist_file : Option String) (sg : Graph) (s : CheckerState)
    (h : BulletCollisionChecker.ctor E globals objects obstacles tree_nodes blacklist_file sg =
      .ok s) :
    NeighborLinksFilter.ctor blacklist_file (countRobotNodes tree_nodes [] 0).2 sg =
      .ok s.broadphase_filter ∧
    ∀ obj ∈ s.bodies, assignedIndex s.broadphase_filter obj := by
  unfold BulletCollisionChecker.ctor at h
  simp only at h
  cases hf : NeighborLinksFilter.ctor blacklist_file (countRobotNodes tree_nodes [] 0).2 sg with
  | error e => rw [hf] at h; exact absurd h (by simp)
  | ok f =>
    rw [hf] at h
    simp only at h
    cases hr : setupRobotBodies E f tree_nodes (countRobotNodes tree_nodes [] 0).1 with
    | error e => rw [hr] at h; exact absurd h (by simp)
    | ok rc =>
      rw [hr] at h
      simp only at h
      injection h with h
      subst h
      refine ⟨rfl, ?_⟩
      intro obj hobj
      simp only [CheckerState.bodies, List.mem_append, List.mem_map] at hobj
      rcases hobj with (hobj | ⟨kv, hkv, rfl⟩) | ⟨kv, hkv, rfl⟩
      · simp only [obstacleBodies, List.mem_map] at hobj
        obtain ⟨o, _, ho⟩ := hobj
        rw [← ho]
        exact Or.inl rfl
      · exact Or.inl (objectBodies_userIndex objects [] (by simp) kv hkv)
      · exact setupRobotBodies_assigned E f tree_nodes _ rc hr kv hkv

/-- C12: when the blacklist file names at most `num_items` distinct links, the constructor
of the filter never sets a bit out of range (its only possible fault is an entry without a
second name), and when it completes every bitset has width `num_items` and the two indices
of every entry are below `num_items` and below the number of bitsets.  When the file names
at most `num_robot_nodes` links, the constructor of the checker can only fail on such an
entry or on a link missing from the tree; every body it builds has a user index that is
`-1` or a value of the index map; and for any two bodies with such indices, if both are
non-negative then `idx1 < blacklist.size()` and `idx2 < num_robot_nodes` and the bit is
read in range, so `needBroadphaseCollision` returns a result whatever the groups, the
masks and the scene graph are. -/
theorem bitset_accesses_in_range (E : Engine) (globals : FileGlobals)
    (objects obstacles : List (String × SceneObject)) (tree_nodes : List (String × Link))
    (blacklist_file : Option String) (sg : Graph) (num_items : Nat) :
    (namesAtMost blacklist_file num_items →
      (∀ e, NeighborLinksFilter.ctor blacklist_file num_items sg = .error e →
        e = .linksOutOfRange) ∧
      ∀ f, NeighborLinksFilter.ctor blacklist_file num_items sg = .ok f →
        (∀ row ∈ f.blacklist, row.length = num_items) ∧
        ∀ content, blacklist_file = some content →
          ∀ line ∈ readTokens content, ∀ a b, (fplus_split ',' true line)[0]? = some a →
            (fplus_split ',' true line)[1]? = some b →
            ∃ i j, f.index_map.lookup a = some i ∧ f.index_map.lookup b = some j ∧
              i < f.blacklist.length ∧ j < f.blacklist.length ∧
              i < num_items ∧ j < num_items) ∧
    (namesAtMost blacklist_file (countRobotNodes tree_nodes [] 0).2 →
      (∀ e, BulletCollisionChecker.ctor E globals objects obstacles tree_nodes blacklist_file
          sg = .error e → e = .linksOutOfRange ∨ e = .noTreeNode) ∧
      ∀ s, BulletCollisionChecker.ctor E globals objects obstacles tree_nodes blacklist_file
          sg = .ok s →
        (∀ obj ∈ s.bodies, assignedIndex s.broadphase_filter obj) ∧
        ∀ obj1 obj2, assignedIndex s.broadphase_filter obj1 →
          assignedIndex s.broadphase_filter obj2 →
          (0 ≤ obj1.userIndex → 0 ≤ obj2.userIndex →
            obj1.userIndex.toNat < s.broadphase_filter.blacklist.length ∧
            obj2.userIndex.toNat < (countRobotNodes tree_nodes [] 0).2 ∧
            ∃ b, readBit s.broadphase_filter.blacklist obj1.userIndex.toNat
              obj2.userIndex.toNat = .ok b) ∧
          ∀ (group0 mask0 group1 mask1 : Int) (sg1 : Graph),
            ∃ r, (setSceneGraph s sg1).broadphase_filter.needBroadphaseCollision
              ⟨obj1, group0, mask0⟩ ⟨obj2, group1, mask1⟩ = .ok r) := by
  have hfault : ∀ n, namesAtMost blacklist_file n →
      ∀ e, NeighborLinksFilter.ctor blacklist_file n sg = .error e → e = .linksOutOfRange := by
    intro n hn e he
    cases blacklist_file with
    | none => simp [NeighborLinksFilter.ctor] at he
    | some content =>
      unfold NeighborLinksFilter.ctor at he
      simp only at he
      cases hl : ctorLoop n { idx := 0, index_map := [], blacklist := [] }
          (readTokens content) with
      | ok t => rw [hl] at he; simp at he
      | error e1 =>
        rw [hl] at he
        injection he with he
        subst he
        exact ctorLoop_fault_is_links n (readTokens content) [] _ (tableInv_init n)
          (Nat.zero_le _) (by rw [foldl_addName_nil, firstSeen_length]; exact hn) _ hl
  have hrange : ∀ (n : Nat) (f : NeighborLinksFilter),
      NeighborLinksFilter.ctor blacklist_file n sg = .ok f →
      ∀ obj1 obj2, assignedIndex f obj1 → assignedIndex f obj2 →
        0 ≤ obj1.userIndex → 0 ≤ obj2.userIndex →
        obj1.userIndex.toNat < f.blacklist.length ∧ obj2.userIndex.toNat < n ∧
        ∃ b, readBit f.blacklist obj1.userIndex.toNat obj2.userIndex.toNat = .ok b := by
    intro n f hf obj1 obj2 a1 a2 p1 p2
    obtain ⟨r1, _⟩ := assignedIndex_in_range blacklist_file n sg f hf obj1 a1 p1
    obtain ⟨_, r2⟩ := assignedIndex_in_range blacklist_file n sg f hf obj2 a2 p2
    obtain ⟨acc, inv, _⟩ := ctor_tableInv blacklist_file n sg f hf
    exact ⟨r1, r2, readBit_in_range f.blacklist n _ _ inv.width r1 r2⟩
  constructor
  · intro hn
    refine ⟨hfault num_items hn, ?_⟩
    intro f hf
    obtain ⟨acc, inv, hlen⟩ := ctor_tableInv blacklist_file num_items sg f hf
    refine ⟨inv.width, ?_⟩
    intro content hc line hline a b h0 h1
    subst hc
    obtain ⟨t, hl, e1, e2, _⟩ := ctor_some_ok content num_items sg f hf
    obtain ⟨_, _, _, _, _, hpairs⟩ :=
      ctorLoop_ok num_items (readTokens content) [] _ t (tableInv_init num_items)
        (Nat.zero_le _) hl
    obtain ⟨i, j, hi, hj, _, _⟩ := hpairs line hline a b h0 h1
    rw [← e1] at hi hj
    have li := inv.index_lt hi
    have lj := inv.index_lt hj
    have hrows : f.blacklist.length = acc.length := inv.rows
    exact ⟨i, j, hi, hj, by omega, by omega, by omega, by omega⟩
  · intro hn
    constructor
    · intro e he
      unfold BulletCollisionChecker.ctor at he
      simp only at he
      cases hf : NeighborLinksFilter.ctor blacklist_file (countRobotNodes tree_nodes [] 0).2
          sg with
      | error e1 =>
        rw [hf] at he
        injection he with he
        subst he
        exact Or.inl (hfault _ hn _ hf)
      | ok f =>
        rw [hf] at he
        simp only at he
        cases hr : setupRobotBodies E f tree_nodes (countRobotNodes tree_nodes [] 0).1 with
        | error e2 =>
          rw [hr] at he
          injection he with he
          subst he
          exact Or.inr (setupRobotBodies_fault E f tree_nodes _ _ hr)
        | ok rc => rw [hr] at he; simp at he
    · intro s hs
      obtain ⟨hf, hbodies⟩ :=
        checker_ctor_ok E globals objects obstacles tree_nodes blacklist_file sg s hs
      refine ⟨hbodies, ?_⟩
      intro obj1 obj2 a1 a2
      refine ⟨hrange _ _ hf obj1 obj2 a1 a2, ?_⟩
      intro group0 mask0 group1 mask1 sg1
      apply needBroadphaseCollision_returns
      by_cases p1 : obj1.userIndex < 0
      · exact Or.inl p1
      · by_cases p2 : obj2.userIndex < 0
        · exact Or.inr (Or.inl p2)
        · exact Or.inr (Or.inr
            (hrange _ _ hf obj1 obj2 a1 a2 (by omega) (by omega)).2.2)

/-- The statement C12 at the sample robot and scene with the blacklist file `arm,hand`. -/
theorem bitset_accesses_in_range_witness :
    namesAtMost (some "arm,hand\n") 2 ∧
    namesAtMost (some "arm,hand\n") (countRobotNodes sampleTreeNodes [] 0).2 ∧
    BulletCollisionChecker.ctor (sampleEngine []) freshGlobals sampleObjects sampleObstacles
      sampleTreeNodes (some "arm,hand\n") sampleGraph = .ok sampleBuilt ∧
    (∀ obj ∈ sampleBuilt.bodies, assignedIndex sampleBuilt.broadphase_filter obj) ∧
    (∀ e, NeighborLinksFilter.ctor (some "arm,hand\n") 2 sampleGraph = .error e →
      e = .linksOutOfRange) :=
  ⟨by unfold namesAtMost; decide, by unfold namesAtMost; decide, rfl,
    ((bitset_accesses_in_range (sampleEngine []) freshGlobals sampleObjects sampleObstacles
      sampleTreeNodes (some "arm,hand\n") sampleGraph 2).2
        (by unfold namesAtMost; decide)).2 sampleBuilt rfl |>.1,
    ((bitset_accesses_in_range (sampleEngine []) freshGlobals sampleObjects sampleObstacles
      sampleTreeNodes (some "arm,hand\n") sampleGraph 2).1
        (by unfold namesAtMost; decide)).1⟩

end planner.collisions
